import Mathlib

/-!
# ConvInteger code generation (onnx2c, `src/nodes/convinteger.h`)

A shallow embedding of the `ConvInteger` node of onnx2c:

* `resolve` - the resolution pass: binds the inputs, validates the node and
  registers the single output tensor;
* `print_output_cell_init`, `print_output_cell_calc`,
  `print_output_cell_finalize` - the three text fragments the node hands to the
  padding-aware loop driver;
* a small semantics of the C statements those fragments consist of, so that
  statements about the value the generated code leaves in an output cell can be
  stated and proved.

`ConvInteger` derives from `SpatialFilter` (`spatialfilter.h`) and `Node`.  Those
classes, the `ERROR` and `INDT_n` macros and the global `options` are not part
of `convinteger.h`; what is needed of them is either a parameter (`Shared`,
`Options`) or a definition marked "Modelled from the spec".
-/

namespace toC

/-! ## Data model -/

/-- Element type tags (`onnx::TensorProto_DataType`); `convinteger.h` itself
names `INT8` and `INT32`. -/
inductive TensorProto_DataType where
  | UNDEFINED
  | FLOAT
  | UINT8
  | INT8
  | UINT16
  | INT16
  | INT32
  | INT64
  deriving DecidableEq, Repr

/-- A tensor description: a name, the dimension sizes and the element type. -/
structure Tensor where
  name : String
  data_dim : List Int
  data_type : TensorProto_DataType
  deriving DecidableEq, Repr

/-- The tensor `new Tensor` yields before `resolve` fills in its fields. -/
def Tensor.fresh : Tensor :=
  { name := "", data_dim := [], data_type := TensorProto_DataType.UNDEFINED }

/-- The global `options`; `convinteger.h` reads only `options.quantize`. -/
structure Options where
  quantize : Bool
  deriving DecidableEq, Repr

/-- The state of a `ConvInteger` node: the `Node` part (`inputs` and the two
registries filled by `register_input` / `register_output`) and the
`SpatialFilter` members `convinteger.h` uses (declared in `spatialfilter.h`;
the attribute vectors hold `int`s, an unset attribute is an empty vector). -/
structure ConvInteger where
  inputs : List Tensor
  input_params : List (Tensor × String)
  output_params : List (Tensor × String)
  x : Option Tensor
  w : Option Tensor
  y : Option Tensor
  kernel_shape : List Int
  auto_pad : String
  dilations : List Int
  group : Int
  pads : List Int
  strides : List Int
  deriving DecidableEq, Repr

/-- The node as the constructor `ConvInteger()` leaves it (`op_name` is not
modelled): `auto_pad = "NOTSET"`, `group = 1`, `x = w = y = NULL`; `inputs` are
attached by the graph afterwards. -/
def ConvInteger.new (inputs : List Tensor) : ConvInteger :=
  { inputs := inputs, input_params := [], output_params := [],
    x := none, w := none, y := none,
    kernel_shape := [], auto_pad := "NOTSET", dilations := [], group := 1,
    pads := [], strides := [] }

/-- Facilities of the surrounding compiler that `convinteger.h` calls but does
not define, taken as parameters:
* `auto_pads` - the padding the shared helper derives from the auto-pad policy;
* `constant_acces_code` - how a read of a constant tensor element is written;
* `data_type_str` - the C name of a tensor's element type;
* `INDT k` - the text of the indentation macro `INDT_k`. -/
structure Shared where
  auto_pads : ConvInteger → List Int
  constant_acces_code : String → String
  data_type_str : Tensor → String
  INDT : Nat → String

/-- Modelled from the spec: the `ERROR(why)` macro (not in `convinteger.h`),
which makes a resolution failure "abort the whole compilation with a
descriptive message".  A call of `resolve` ends in a normal return, in an
`ERROR(why)` abort (with the node state reached at that point), or in
undefined behaviour of the C++ code (an out-of-range `operator[]`, a division
by zero). -/
inductive Outcome where
  | ok (n : ConvInteger)
  | error (why : String) (n : ConvInteger)
  | undefined
  deriving DecidableEq, Repr

/-! ## Error messages

The four `ERROR` texts of `resolve`, under the names of the error kinds of the
specification. -/

/-- `ERROR("Unimplemented: ConvInteger for non 2D images")`. -/
def UnsupportedRank : String := "Unimplemented: ConvInteger for non 2D images"

/-- `ERROR("Unimplemented: ConvInteger: setting group to anything but 1")`. -/
def UnsupportedGrouping : String :=
  "Unimplemented: ConvInteger: setting group to anything but 1"

/-- `ERROR("Unimplemented: ConvInteger: dilations other than 1")`. -/
def UnsupportedDilation : String := "Unimplemented: ConvInteger: dilations other than 1"

/-- `ERROR("unimplemented: weight zero points")`. -/
def UnsupportedWeightZeroPoint : String := "unimplemented: weight zero points"

/-! ## Helpers inherited from `Node` and `SpatialFilter` -/

/-- Modelled from the spec: `Node::register_input` (not in `convinteger.h`),
the binding facility "that records how a tensor is referenced in generated
code". -/
def register_input (n : ConvInteger) (t : Tensor) (name : String) : ConvInteger :=
  { n with input_params := n.input_params ++ [(t, name)] }

/-- Modelled from the spec: `Node::register_output` (not in `convinteger.h`):
"the produced Tensor is registered as the node's sole output". -/
def register_output (n : ConvInteger) (t : Tensor) (name : String) : ConvInteger :=
  { n with output_params := n.output_params ++ [(t, name)] }

/-- Modelled from the spec: `SpatialFilter::resolve_strides` (`spatialfilter.h`):
"Resolve strides (default 1 per spatial axis if unset)". -/
def resolve_strides (x : Tensor) (n : ConvInteger) : ConvInteger :=
  if n.strides = [] then { n with strides := List.replicate (x.data_dim.length - 2) 1 } else n

/-- Modelled from the spec: `SpatialFilter::resolve_dilations` (`spatialfilter.h`):
"Resolve dilations (default 1 per spatial axis)". -/
def resolve_dilations (x : Tensor) (n : ConvInteger) : ConvInteger :=
  if n.dilations = [] then { n with dilations := List.replicate (x.data_dim.length - 2) 1 } else n

/-- Modelled from the spec: `SpatialFilter::resolve_pads` (`spatialfilter.h`):
"Resolve padding (explicit values, or computed from an auto-pad policy ...
delegated to a shared helper)". -/
def resolve_pads (sh : Shared) (n : ConvInteger) : ConvInteger :=
  if n.pads = [] then { n with pads := sh.auto_pads n } else n

/-- Modelled from the spec: `SpatialFilter::resolve_kernel_shape`
(`spatialfilter.h`): "Resolve kernel shape from the weights tensor's trailing
two dimensions unless overridden by an explicit attribute". -/
def resolve_kernel_shape (w : Tensor) (n : ConvInteger) : ConvInteger :=
  if n.kernel_shape = [] then
    { n with kernel_shape := w.data_dim.drop (w.data_dim.length - 2) }
  else n

/-- Modelled from the spec: the output size of one spatial axis,
`floor((in + pad_begin + pad_end - ((kernel-1)*dilation+1)) / stride) + 1`;
there is no value for a zero stride. -/
def output_spatial_size (inp pad_begin pad_end kernel dilation stride : Int) : Option Int :=
  if stride = 0 then none
  else some (Int.fdiv (inp + pad_begin + pad_end - ((kernel - 1) * dilation + 1)) stride + 1)

/-- Modelled from the spec: the output size of spatial axis `i` (0 or 1) of the
node, read off the resolved attributes; `pads` holds the two begin values
followed by the two end values.  `none` when an attribute has no entry for the
axis. -/
def output_axis (x : Tensor) (n : ConvInteger) (i : Nat) : Option Int :=
  match x.data_dim[i + 2]?, n.pads[i]?, n.pads[i + 2]?, n.kernel_shape[i]?,
      n.dilations[i]?, n.strides[i]? with
  | some inp, some pad_begin, some pad_end, some kernel, some dilation, some stride =>
      output_spatial_size inp pad_begin pad_end kernel dilation stride
  | _, _, _, _, _, _ => none

/-- Modelled from the spec: `SpatialFilter::resolve_output_size`
(`spatialfilter.h`): "output channel count = weights tensor's leading
dimension; output batch = data tensor's batch dimension", shape
`(batch, output_channels, out_h, out_w)`. -/
def resolve_output_size (x w : Tensor) (n : ConvInteger) : Option (List Int) :=
  match x.data_dim[0]?, w.data_dim[0]?, output_axis x n 0, output_axis x n 1 with
  | some batch, some m, some out_h, some out_w => some [batch, m, out_h, out_w]
  | _, _, _, _ => none

/-! ## `ConvInteger::resolve` -/

/-- The four attribute resolutions `resolve` runs between the rank check and
the group check, in the source's order: `resolve_strides(); resolve_dilations();
resolve_pads(); resolve_kernel_shape();`. -/
def resolve_attributes (sh : Shared) (x w : Tensor) (n : ConvInteger) : ConvInteger :=
  resolve_kernel_shape w (resolve_pads sh (resolve_dilations x (resolve_strides x n)))

/-- `ConvInteger::resolve` (lines 73-112).  `ERROR` aborts the resolution,
so nothing after it runs. -/
def resolve (opts : Options) (sh : Shared) (n : ConvInteger) : Outcome :=
  match n.inputs with
  | x :: w :: _ =>
    -- x = inputs[0]; register_input(x, "x");
    let n1 := register_input { n with x := some x } x "x"
    -- w = inputs[1]; register_input(w, "w");
    let n2 := register_input { n1 with w := some w } w "w"
    -- if( inputs.size() > 2 ) register_input(inputs[2], "x_zero_point");
    let n3 := if h : n.inputs.length > 2 then
        register_input n2 n.inputs[2] "x_zero_point"
      else n2
    -- if( inputs.size() > 3 ){ register_input(inputs[3], "w_zero_point"); ERROR(...); }
    if h : n.inputs.length > 3 then
      Outcome.error "unimplemented: weight zero points"
        (register_input n3 n.inputs[3] "w_zero_point")
    -- if( x->data_dim.size() != 4 ) ERROR(...);
    else if x.data_dim.length ≠ 4 then
      Outcome.error "Unimplemented: ConvInteger for non 2D images" n3
    else
      let n4 := resolve_attributes sh x w n3
      -- if( group != 1 ) ERROR(...);
      if n4.group ≠ 1 then
        Outcome.error "Unimplemented: ConvInteger: setting group to anything but 1" n4
      -- for( int d : dilations ) if( d != 1 ) ERROR(...);
      else if n4.dilations.any (fun d => decide (d ≠ 1)) then
        Outcome.error "Unimplemented: ConvInteger: dilations other than 1" n4
      else
        -- Tensor *rv = new Tensor; rv->data_dim = resolve_output_size();
        match resolve_output_size x w n4 with
        | none => Outcome.undefined
        | some dims =>
          let rv : Tensor :=
            { Tensor.fresh with
              data_dim := dims
              data_type := if opts.quantize then TensorProto_DataType.INT8
                           else TensorProto_DataType.INT32 }
          -- y=rv; register_output(rv, "y");
          Outcome.ok (register_output { n4 with y := some rv } rv "y")
  | _ => Outcome.undefined

/-! ## Concrete nodes used in the examples -/

/-- A shared-helper bundle: zero padding, plain constant access, tabs. -/
def plainShared : Shared :=
  { auto_pads := fun _ => [0, 0, 0, 0]
    constant_acces_code := fun s => s
    data_type_str := fun t =>
      match t.data_type with
      | TensorProto_DataType.UINT8 => "uint8_t"
      | TensorProto_DataType.INT8 => "int8_t"
      | _ => "int32_t"
    INDT := fun k => String.mk (List.replicate k (Char.ofNat 9)) }

/-- Scenario A/B data tensor, shape (1,1,5,5). -/
def dataA : Tensor :=
  { name := "data", data_dim := [1, 1, 5, 5], data_type := TensorProto_DataType.UINT8 }

/-- Scenario A/B weights, shape (1,1,3,3). -/
def weightsA : Tensor :=
  { name := "weights", data_dim := [1, 1, 3, 3], data_type := TensorProto_DataType.UINT8 }

/-- A one-element zero-point tensor. -/
def zeroPoint (name : String) : Tensor :=
  { name := name, data_dim := [1], data_type := TensorProto_DataType.UINT8 }

/-- Scenario A/B node: data, weights and a data zero-point. -/
def nodeA : ConvInteger := ConvInteger.new [dataA, weightsA, zeroPoint "xz"]

/-! ## The three output-cell fragments

Each `print_...` function appends text to the stream `dst`; the embedding
returns the appended text.  `std::endl` is a newline.  The index strings
(`x_idx`, `w_idx`, `y_idx`) are arguments the source never uses. -/

/-- Signed 32-bit wrap-around of an integer: the value a C `int` / `int32_t`
computation yields on two's-complement hardware.  (An overflowing signed
computation is formally undefined in C; statements of exact results below
assume that none occurs.) -/
def wrap32 (v : Int) : Int := (v + 2147483648) % 4294967296 - 2147483648

/-- A value of the 32-bit signed range. -/
def in_int32 (v : Int) : Prop := -2147483648 ≤ v ∧ v ≤ 2147483647

instance (v : Int) : Decidable (in_int32 v) := by unfold in_int32; infer_instance

/-- `ConvInteger::print_output_cell_init` (lines 24-30). -/
def print_output_cell_init (opts : Options) (sh : Shared) (_y_idx : String) : String :=
  if opts.quantize then
    sh.INDT 3 ++ "int32_t cell = 0;" ++ "\n"
  else
    sh.INDT 3 ++ "y[b][m][o0][o1] = 0;" ++ "\n"

/-- The local `x_zero` of `print_output_cell_calc` (lines 38-42). -/
def x_zero (sh : Shared) (n : ConvInteger) : String :=
  if n.inputs.length ≥ 3 then sh.constant_acces_code "x_zero_point[0]" else "0"

/-- The local `dest` of `print_output_cell_calc` (lines 45-49). -/
def dest (opts : Options) : String :=
  if opts.quantize then "cell" else "y[b][m][o0][o1]"

/-- `ConvInteger::print_output_cell_calc` (lines 32-52); `none` when the
member `w` is still `NULL` (it is dereferenced for `data_type_str`). -/
def print_output_cell_calc (opts : Options) (sh : Shared) (n : ConvInteger)
    (_x_idx _w_idx _y_idx : String) : Option String :=
  match n.w with
  | none => none
  | some w =>
    some (sh.INDT 4 ++ sh.data_type_str w ++ " w_ = " ++
        sh.constant_acces_code "w[m][c][k0][k1]" ++ ";" ++ "\n" ++
      (sh.INDT 4 ++ dest opts ++ "+= (x[b][c][i0+k0][i1+k1] - " ++ x_zero sh n ++
        ") * w_;" ++ "\n"))

/-- The local `int divisor = kernel_shape[0]*kernel_shape[1]*16;` of
`print_output_cell_finalize` (line 58), computed in 32-bit `int` arithmetic;
`none` when `kernel_shape` has fewer than two entries. -/
def divisor (n : ConvInteger) : Option Int :=
  match n.kernel_shape with
  | k0 :: k1 :: _ => some (wrap32 (wrap32 (k0 * k1) * 16))
  | _ => none

/-- `ConvInteger::print_output_cell_finalize` (lines 54-64). -/
def print_output_cell_finalize (opts : Options) (sh : Shared) (n : ConvInteger)
    (_y_idx : String) : Option String :=
  if opts.quantize then
    match divisor n with
    | none => none
    | some d =>
      some (sh.INDT 3 ++ "int32_t tmp = cell/" ++ toString d ++ ";" ++ "\n" ++
        (sh.INDT 3 ++ "tmp = tmp > 127?127:tmp;" ++ "\n") ++
        (sh.INDT 3 ++ "tmp = tmp < -127?-127:tmp;" ++ "\n") ++
        (sh.INDT 3 ++ "y[b][m][o0][o1] = tmp;" ++ "\n"))
  else some ""

/-! ## The emitted C statements and their meaning

The fragments are C statements.  `CExpr` / `CStmt` are the statements that
occur, `render` writes them as text (the text the `print_...` functions emit,
see `print_output_cell_init_render` and its siblings), and `eval` / `exec` give
their value on a store that maps the text of a variable or array element to
its current value.  Arithmetic is that of a 32-bit `int`; a division by zero
has no value. -/

/-- C expressions of the emitted fragments. -/
inductive CExpr where
  | lit (v : Int)
  | ref (lv : String)
  | const_ref (plain : String)
  | paren (e : CExpr)
  | sub (a b : CExpr)
  | mul (a b : CExpr)
  | div (a b : CExpr)
  | gt (a b : CExpr)
  | lt (a b : CExpr)
  | cond (c t e : CExpr)
  deriving DecidableEq, Repr

/-- C statements of the emitted fragments: `ty name = init;`, `lv = e;` and
`lv+= e;`. -/
inductive CStmt where
  | decl (ty name : String) (init : CExpr)
  | assign (lv : String) (e : CExpr)
  | add_assign (lv : String) (e : CExpr)
  deriving DecidableEq, Repr

/-- The text of an expression; a constant tensor element is written through
`constant_acces_code`. -/
def CExpr.render (sh : Shared) : CExpr → String
  | CExpr.lit v => toString v
  | CExpr.ref lv => lv
  | CExpr.const_ref plain => sh.constant_acces_code plain
  | CExpr.paren e => "(" ++ e.render sh ++ ")"
  | CExpr.sub a b => a.render sh ++ " - " ++ b.render sh
  | CExpr.mul a b => a.render sh ++ " * " ++ b.render sh
  | CExpr.div a b => a.render sh ++ "/" ++ b.render sh
  | CExpr.gt a b => a.render sh ++ " > " ++ b.render sh
  | CExpr.lt a b => a.render sh ++ " < " ++ b.render sh
  | CExpr.cond c t e => c.render sh ++ "?" ++ t.render sh ++ ":" ++ e.render sh

/-- The text of a statement. -/
def CStmt.render (sh : Shared) : CStmt → String
  | CStmt.decl ty name init => ty ++ " " ++ name ++ " = " ++ init.render sh ++ ";"
  | CStmt.assign lv e => lv ++ " = " ++ e.render sh ++ ";"
  | CStmt.add_assign lv e => lv ++ "+= " ++ e.render sh ++ ";"

/-- The statements, one per line, each behind the indentation `INDT_k`. -/
def render_lines (sh : Shared) (k : Nat) : List CStmt → String
  | [] => ""
  | s :: rest => sh.INDT k ++ s.render sh ++ "\n" ++ render_lines sh k rest

/-- Values of the variables and array elements, by their text; an entry that
was never written reads 0. -/
abbrev Store := List (String × Int)

/-- The value stored for `lv`. -/
def Store.get : Store → String → Int
  | [], _ => 0
  | (k, v) :: rest, lv => if k = lv then v else Store.get rest lv

/-- The store after writing `v` to `lv`. -/
def Store.set (σ : Store) (lv : String) (v : Int) : Store :=
  (lv, v) :: σ.filter (fun e => decide (e.1 ≠ lv))

/-- The value of an expression. -/
def CExpr.eval (σ : Store) : CExpr → Option Int
  | CExpr.lit v => some v
  | CExpr.ref lv => some (σ.get lv)
  | CExpr.const_ref plain => some (σ.get plain)
  | CExpr.paren e => e.eval σ
  | CExpr.sub a b =>
      match a.eval σ, b.eval σ with
      | some va, some vb => some (wrap32 (va - vb))
      | _, _ => none
  | CExpr.mul a b =>
      match a.eval σ, b.eval σ with
      | some va, some vb => some (wrap32 (va * vb))
      | _, _ => none
  | CExpr.div a b =>
      match a.eval σ, b.eval σ with
      | some va, some vb => if vb = 0 then none else some (wrap32 (Int.tdiv va vb))
      | _, _ => none
  | CExpr.gt a b =>
      match a.eval σ, b.eval σ with
      | some va, some vb => some (if va > vb then 1 else 0)
      | _, _ => none
  | CExpr.lt a b =>
      match a.eval σ, b.eval σ with
      | some va, some vb => some (if va < vb then 1 else 0)
      | _, _ => none
  | CExpr.cond c t e =>
      match c.eval σ with
      | some vc => if vc ≠ 0 then t.eval σ else e.eval σ
      | none => none

/-- The store after a statement. -/
def CStmt.exec (σ : Store) : CStmt → Option Store
  | CStmt.decl _ name init => (init.eval σ).map (fun v => σ.set name v)
  | CStmt.assign lv e => (e.eval σ).map (fun v => σ.set lv v)
  | CStmt.add_assign lv e => (e.eval σ).map (fun v => σ.set lv (wrap32 (σ.get lv + v)))

/-- The store after a sequence of statements. -/
def exec_all : List CStmt → Store → Option Store
  | [], σ => some σ
  | s :: rest, σ =>
      match s.exec σ with
      | some σ1 => exec_all rest σ1
      | none => none

/-- The zero-point operand of the accumulate fragment: the expression whose
text is `x_zero`. -/
def x_zero_expr (n : ConvInteger) : CExpr :=
  if n.inputs.length ≥ 3 then CExpr.const_ref "x_zero_point[0]" else CExpr.lit 0

/-- The statement of `print_output_cell_init`. -/
def cell_init (opts : Options) : List CStmt :=
  if opts.quantize then [CStmt.decl "int32_t" "cell" (CExpr.lit 0)]
  else [CStmt.assign "y[b][m][o0][o1]" (CExpr.lit 0)]

/-- The two statements of `print_output_cell_calc`. -/
def cell_calc (opts : Options) (sh : Shared) (n : ConvInteger) (w : Tensor) : List CStmt :=
  [CStmt.decl (sh.data_type_str w) "w_" (CExpr.const_ref "w[m][c][k0][k1]"),
   CStmt.add_assign (dest opts)
     (CExpr.mul (CExpr.paren (CExpr.sub (CExpr.ref "x[b][c][i0+k0][i1+k1]") (x_zero_expr n)))
       (CExpr.ref "w_"))]

/-- The statements of `print_output_cell_finalize` for the divisor `d`. -/
def cell_finalize (opts : Options) (d : Int) : List CStmt :=
  if opts.quantize then
    [CStmt.decl "int32_t" "tmp" (CExpr.div (CExpr.ref "cell") (CExpr.lit d)),
     CStmt.assign "tmp"
       (CExpr.cond (CExpr.gt (CExpr.ref "tmp") (CExpr.lit 127)) (CExpr.lit 127) (CExpr.ref "tmp")),
     CStmt.assign "tmp"
       (CExpr.cond (CExpr.lt (CExpr.ref "tmp") (CExpr.lit (-127))) (CExpr.lit (-127))
         (CExpr.ref "tmp")),
     CStmt.assign "y[b][m][o0][o1]" (CExpr.ref "tmp")]
  else []

/-- Modelled from the spec: the accumulate phase of the loop-nest driver
(`print_loop_with_padding_checks`, `spatialfilter.h`) for one output cell:
the accumulate fragment runs "once per valid kernel position"; a position is
given by the data value `x[b][c][i0+k0][i1+k1]` and the weight
`w[m][c][k0][k1]` read there. -/
def run_positions (accum : List CStmt) : List (Int × Int) → Store → Option Store
  | [], σ => some σ
  | p :: ps, σ =>
      match exec_all accum ((σ.set "x[b][c][i0+k0][i1+k1]" p.1).set "w[m][c][k0][k1]" p.2) with
      | some σ1 => run_positions accum ps σ1
      | none => none

/-- Modelled from the spec: the driver's three phases for one output cell:
Init "once per output cell, before any kernel position is visited", Accumulate
"once per valid kernel position", Finalize "once per output cell, after all
kernel positions". -/
def run_cell (init accum finalize : List CStmt) (ps : List (Int × Int)) (σ : Store) :
    Option Store :=
  match exec_all init σ with
  | none => none
  | some σ1 =>
    match run_positions accum ps σ1 with
    | none => none
    | some σ2 => exec_all finalize σ2

/-- The value the generated code leaves in the output cell `y[b][m][o0][o1]`
of a node: the three fragments of the node run by the driver over the kernel
positions `ps`, from the store `σ`.  `none` when a fragment cannot be emitted
or the run has no value.  With quantization off the finalize fragment is empty
and no divisor is computed (`cell_finalize` ignores its argument). -/
def output_cell (opts : Options) (sh : Shared) (n : ConvInteger) (ps : List (Int × Int))
    (σ : Store) : Option Int :=
  match n.w, (if opts.quantize then divisor n else some 1) with
  | some w, some d =>
      (run_cell (cell_init opts) (cell_calc opts sh n w) (cell_finalize opts d) ps σ).map
        (fun σ1 => σ1.get "y[b][m][o0][o1]")
  | _, _ => none

/-- One accumulate step on the accumulator `acc`, in 32-bit arithmetic, for
the zero-point `zp` and the position `p = (x, w)`. -/
def accumulate (zp : Int) (acc : Int) (p : Int × Int) : Int :=
  wrap32 (acc + wrap32 (wrap32 (p.1 - zp) * p.2))

/-- The exact sum of `(x - x_zero) * w` over the positions. -/
def cell_sum (zp : Int) (ps : List (Int × Int)) : Int :=
  (ps.map (fun p => (p.1 - zp) * p.2)).sum

/-- No difference, product or running sum of the accumulation from `acc`
leaves the 32-bit signed range. -/
def no_overflow (zp : Int) : Int → List (Int × Int) → Bool
  | _, [] => true
  | acc, p :: ps =>
      decide (in_int32 (p.1 - zp)) && decide (in_int32 ((p.1 - zp) * p.2)) &&
        decide (in_int32 (acc + (p.1 - zp) * p.2)) &&
        no_overflow zp (acc + (p.1 - zp) * p.2) ps

/-- The zero-point the accumulate fragment subtracts: element 0 of
`x_zero_point` when the node has a 3rd input, else 0. -/
def zero_point_value (n : ConvInteger) (σ : Store) : Int :=
  if n.inputs.length ≥ 3 then σ.get "x_zero_point[0]" else 0

/-- Saturation to `[lo, hi]` as the two conditional assignments of the
finalize fragment compute it. -/
def clamp (v lo hi : Int) : Int :=
  if v > hi then hi else if v < lo then lo else v

/-- The store in which nothing was written yet. -/
def zeroStore : Store := []

/-- The accumulator after the accumulate steps over `ps`, started at 0, in
32-bit arithmetic. -/
def cell_value (zp : Int) (ps : List (Int × Int)) : Int :=
  ps.foldl (accumulate zp) 0

/-- The `ERROR` text of an outcome, when it is an abort. -/
def Outcome.why : Outcome → Option String
  | Outcome.error why _ => some why
  | _ => none

/-- The node state `resolve` has reached once the inputs are bound (lines
75-81): `x`, `w` set, and `x`, `w` and the 3rd input, if any, registered. -/
def bind_inputs (n : ConvInteger) (x w : Tensor) (rest : List Tensor) : ConvInteger :=
  { n with
    x := some x
    w := some w
    input_params := n.input_params ++ [(x, "x"), (w, "w")] ++
      (rest.take 1).map (fun z => (z, "x_zero_point")) }

/-- The output tensor `resolve` creates for the resolved size `dims` (lines
103-110). -/
def output_tensor (opts : Options) (dims : List Int) : Tensor :=
  { name := "", data_dim := dims,
    data_type := if opts.quantize then TensorProto_DataType.INT8
                 else TensorProto_DataType.INT32 }

/-! ## More concrete nodes -/

/-- The attributes and bindings `resolve` leaves on `nodeA`, output aside. -/
def boundA : ConvInteger :=
  { nodeA with
    input_params := [(dataA, "x"), (weightsA, "w"), (zeroPoint "xz", "x_zero_point")]
    x := some dataA
    w := some weightsA
    kernel_shape := [3, 3]
    dilations := [1, 1]
    pads := [0, 0, 0, 0]
    strides := [1, 1] }

/-- Scenario A: `nodeA` resolved with quantization off. -/
def resolvedA : ConvInteger :=
  { boundA with
    output_params := [(output_tensor { quantize := false } [1, 1, 3, 3], "y")]
    y := some (output_tensor { quantize := false } [1, 1, 3, 3]) }

/-- Scenario B: `nodeA` resolved with quantization on. -/
def resolvedB : ConvInteger :=
  { boundA with
    output_params := [(output_tensor { quantize := true } [1, 1, 3, 3], "y")]
    y := some (output_tensor { quantize := true } [1, 1, 3, 3]) }

/-- Rank 5 data tensor (Scenario C) together with a weight zero-point input. -/
def nodeRank5WithWeightZero : ConvInteger :=
  ConvInteger.new
    [{ dataA with data_dim := [1, 1, 3, 3, 3] }, weightsA, zeroPoint "xz", zeroPoint "wz"]

/-- Scenario D: `group = 2` with otherwise valid shapes. -/
def nodeGrouped : ConvInteger :=
  { ConvInteger.new [dataA, weightsA] with group := 2 }

/-- Rank 4 data, two inputs, dilations 2 and group 2. -/
def nodeDilatedGrouped : ConvInteger :=
  { ConvInteger.new [dataA, weightsA] with dilations := [2, 2], group := 2 }

/-- A 1x1 convolution over 40000 input channels: data (1,40000,1,1), weights
(1,40000,1,1), no zero-point input. -/
def nodeWide : ConvInteger :=
  ConvInteger.new
    [{ name := "data", data_dim := [1, 40000, 1, 1], data_type := TensorProto_DataType.UINT8 },
     { name := "weights", data_dim := [1, 40000, 1, 1], data_type := TensorProto_DataType.UINT8 }]

/-- The node `nodeWide` resolved with quantization off. -/
def resolvedWide : ConvInteger :=
  { nodeWide with
    input_params :=
      [({ name := "data", data_dim := [1, 40000, 1, 1], data_type := TensorProto_DataType.UINT8 },
        "x"),
       ({ name := "weights", data_dim := [1, 40000, 1, 1],
          data_type := TensorProto_DataType.UINT8 }, "w")]
    output_params := [(output_tensor { quantize := false } [1, 1, 1, 1], "y")]
    x := some { name := "data", data_dim := [1, 40000, 1, 1],
                data_type := TensorProto_DataType.UINT8 }
    w := some { name := "weights", data_dim := [1, 40000, 1, 1],
                data_type := TensorProto_DataType.UINT8 }
    y := some (output_tensor { quantize := false } [1, 1, 1, 1])
    kernel_shape := [1, 1]
    dilations := [1, 1]
    pads := [0, 0, 0, 0]
    strides := [1, 1] }

/-- A convolution whose kernel covers a 16384 x 16384 image: data
(1,1,16384,16384), weights (1,1,16384,16384). -/
def nodeHuge : ConvInteger :=
  ConvInteger.new
    [{ name := "data", data_dim := [1, 1, 16384, 16384],
       data_type := TensorProto_DataType.UINT8 },
     { name := "weights", data_dim := [1, 1, 16384, 16384],
       data_type := TensorProto_DataType.UINT8 }]

/-- The node `nodeHuge` resolved with quantization on. -/
def resolvedHuge : ConvInteger :=
  { nodeHuge with
    input_params :=
      [({ name := "data", data_dim := [1, 1, 16384, 16384],
          data_type := TensorProto_DataType.UINT8 }, "x"),
       ({ name := "weights", data_dim := [1, 1, 16384, 16384],
          data_type := TensorProto_DataType.UINT8 }, "w")]
    output_params := [(output_tensor { quantize := true } [1, 1, 1, 1], "y")]
    x := some { name := "data", data_dim := [1, 1, 16384, 16384],
                data_type := TensorProto_DataType.UINT8 }
    w := some { name := "weights", data_dim := [1, 1, 16384, 16384],
                data_type := TensorProto_DataType.UINT8 }
    y := some (output_tensor { quantize := true } [1, 1, 1, 1])
    kernel_shape := [16384, 16384]
    dilations := [1, 1]
    pads := [0, 0, 0, 0]
    strides := [1, 1] }

/-- A 1x1 convolution of a one-pixel image with a data zero-point. -/
def nodePixel : ConvInteger :=
  ConvInteger.new
    [{ name := "data", data_dim := [1, 1, 1, 1], data_type := TensorProto_DataType.UINT8 },
     { name := "weights", data_dim := [1, 1, 1, 1], data_type := TensorProto_DataType.UINT8 },
     zeroPoint "xz"]

/-- The node `nodePixel` resolved with quantization on. -/
def resolvedPixel : ConvInteger :=
  { nodePixel with
    input_params :=
      [({ name := "data", data_dim := [1, 1, 1, 1], data_type := TensorProto_DataType.UINT8 },
        "x"),
       ({ name := "weights", data_dim := [1, 1, 1, 1],
          data_type := TensorProto_DataType.UINT8 }, "w"),
       (zeroPoint "xz", "x_zero_point")]
    output_params := [(output_tensor { quantize := true } [1, 1, 1, 1], "y")]
    x := some { name := "data", data_dim := [1, 1, 1, 1],
                data_type := TensorProto_DataType.UINT8 }
    w := some { name := "weights", data_dim := [1, 1, 1, 1],
                data_type := TensorProto_DataType.UINT8 }
    y := some (output_tensor { quantize := true } [1, 1, 1, 1])
    kernel_shape := [1, 1]
    dilations := [1, 1]
    pads := [0, 0, 0, 0]
    strides := [1, 1] }

/-! ## Lemmas on `resolve` -/

@[simp] theorem register_input_output_params (n : ConvInteger) (t : Tensor) (s : String) :
    (register_input n t s).output_params = n.output_params := rfl

@[simp] theorem register_input_y (n : ConvInteger) (t : Tensor) (s : String) :
    (register_input n t s).y = n.y := rfl

@[simp] theorem register_input_group (n : ConvInteger) (t : Tensor) (s : String) :
    (register_input n t s).group = n.group := rfl

@[simp] theorem register_input_dilations (n : ConvInteger) (t : Tensor) (s : String) :
    (register_input n t s).dilations = n.dilations := rfl

@[simp] theorem resolve_attributes_output_params (sh : Shared) (x w : Tensor) (n : ConvInteger) :
    (resolve_attributes sh x w n).output_params = n.output_params := by
  simp only [resolve_attributes, resolve_kernel_shape, resolve_pads, resolve_dilations,
    resolve_strides]
  repeat' split
  all_goals rfl

@[simp] theorem resolve_attributes_y (sh : Shared) (x w : Tensor) (n : ConvInteger) :
    (resolve_attributes sh x w n).y = n.y := by
  simp only [resolve_attributes, resolve_kernel_shape, resolve_pads, resolve_dilations,
    resolve_strides]
  repeat' split
  all_goals rfl

@[simp] theorem resolve_attributes_group (sh : Shared) (x w : Tensor) (n : ConvInteger) :
    (resolve_attributes sh x w n).group = n.group := by
  simp only [resolve_attributes, resolve_kernel_shape, resolve_pads, resolve_dilations,
    resolve_strides]
  repeat' split
  all_goals rfl

theorem resolve_attributes_dilations (sh : Shared) (x w : Tensor) (n : ConvInteger) :
    (resolve_attributes sh x w n).dilations = (resolve_dilations x n).dilations := by
  simp only [resolve_attributes, resolve_kernel_shape, resolve_pads, resolve_dilations,
    resolve_strides]
  repeat' split
  all_goals rfl

/-- A node with four or more inputs: `resolve` aborts on the weight zero-point. -/
theorem resolve_four (opts : Options) (sh : Shared) (n : ConvInteger) (x w z wz : Tensor)
    (rest : List Tensor) (hin : n.inputs = x :: w :: z :: wz :: rest) :
    resolve opts sh n =
      Outcome.error UnsupportedWeightZeroPoint
        (register_input (bind_inputs n x w (z :: wz :: rest)) wz "w_zero_point") := by
  unfold resolve
  simp [hin, bind_inputs, register_input, UnsupportedWeightZeroPoint]

/-- A node with two or three inputs: `resolve` as a chain of its remaining
checks on the state reached after binding the inputs. -/
theorem resolve_upto_three (opts : Options) (sh : Shared) (n : ConvInteger) (x w : Tensor)
    (rest : List Tensor) (hin : n.inputs = x :: w :: rest) (hlen : n.inputs.length ≤ 3) :
    resolve opts sh n =
      if x.data_dim.length ≠ 4 then Outcome.error UnsupportedRank (bind_inputs n x w rest)
      else if (resolve_attributes sh x w (bind_inputs n x w rest)).group ≠ 1 then
        Outcome.error UnsupportedGrouping (resolve_attributes sh x w (bind_inputs n x w rest))
      else if (resolve_attributes sh x w (bind_inputs n x w rest)).dilations.any
          (fun d => decide (d ≠ 1)) then
        Outcome.error UnsupportedDilation (resolve_attributes sh x w (bind_inputs n x w rest))
      else
        match resolve_output_size x w (resolve_attributes sh x w (bind_inputs n x w rest)) with
        | none => Outcome.undefined
        | some dims =>
          Outcome.ok (register_output
            { resolve_attributes sh x w (bind_inputs n x w rest) with
              y := some { name := "", data_dim := dims,
                          data_type := if opts.quantize then TensorProto_DataType.INT8
                                       else TensorProto_DataType.INT32 } }
            { name := "", data_dim := dims,
              data_type := if opts.quantize then TensorProto_DataType.INT8
                           else TensorProto_DataType.INT32 } "y") := by
  unfold resolve
  rcases rest with _ | ⟨z, _ | ⟨wz, rest⟩⟩
  · simp [hin, bind_inputs, register_input, UnsupportedRank, UnsupportedGrouping,
      UnsupportedDilation, Tensor.fresh]
  · simp [hin, bind_inputs, register_input, UnsupportedRank, UnsupportedGrouping,
      UnsupportedDilation, Tensor.fresh]
  · simp [hin] at hlen

/-- Fewer than two inputs: `inputs[0]` or `inputs[1]` is out of range. -/
theorem resolve_short (opts : Options) (sh : Shared) (n : ConvInteger)
    (h : n.inputs.length < 2) : resolve opts sh n = Outcome.undefined := by
  unfold resolve
  split
  · next x w rest hin => simp only [hin, List.length_cons] at h; omega
  · rfl

@[simp] theorem bind_inputs_output_params (n : ConvInteger) (x w : Tensor) (rest : List Tensor) :
    (bind_inputs n x w rest).output_params = n.output_params := rfl

@[simp] theorem bind_inputs_y (n : ConvInteger) (x w : Tensor) (rest : List Tensor) :
    (bind_inputs n x w rest).y = n.y := rfl

@[simp] theorem bind_inputs_group (n : ConvInteger) (x w : Tensor) (rest : List Tensor) :
    (bind_inputs n x w rest).group = n.group := rfl

@[simp] theorem bind_inputs_dilations (n : ConvInteger) (x w : Tensor) (rest : List Tensor) :
    (bind_inputs n x w rest).dilations = n.dilations := rfl

theorem resolved_dilations (sh : Shared) (n : ConvInteger) (x w : Tensor) (rest : List Tensor) :
    (resolve_attributes sh x w (bind_inputs n x w rest)).dilations
      = (resolve_dilations x n).dilations := by
  rw [resolve_attributes_dilations]; simp only [resolve_dilations, bind_inputs]; split <;> rfl

/-- Inversion of a successful `resolve`: every check passed and the returned
node is the resolved one with the output tensor registered. -/
theorem resolve_ok_inv (opts : Options) (sh : Shared) (n n' : ConvInteger)
    (h : resolve opts sh n = Outcome.ok n') :
    ∃ (x w : Tensor) (rest : List Tensor) (dims : List Int),
      n.inputs = x :: w :: rest ∧ n.inputs.length ≤ 3 ∧ x.data_dim.length = 4 ∧
      (resolve_attributes sh x w (bind_inputs n x w rest)).group = 1 ∧
      (∀ d ∈ (resolve_attributes sh x w (bind_inputs n x w rest)).dilations, d = 1) ∧
      resolve_output_size x w (resolve_attributes sh x w (bind_inputs n x w rest)) = some dims ∧
      n' = register_output
            { resolve_attributes sh x w (bind_inputs n x w rest) with
              y := some (output_tensor opts dims) }
            (output_tensor opts dims) "y" := by
  match hin : n.inputs with
  | [] => rw [resolve_short opts sh n (by simp [hin])] at h; exact absurd h (by simp)
  | [_] => rw [resolve_short opts sh n (by simp [hin])] at h; exact absurd h (by simp)
  | x :: w :: rest =>
    by_cases hlen : n.inputs.length ≤ 3
    · rw [resolve_upto_three opts sh n x w rest hin hlen] at h
      by_cases hr : x.data_dim.length ≠ 4
      · rw [if_pos hr] at h; exact absurd h (by simp)
      · rw [if_neg hr] at h
        by_cases hg : (resolve_attributes sh x w (bind_inputs n x w rest)).group ≠ 1
        · rw [if_pos hg] at h; exact absurd h (by simp)
        · rw [if_neg hg] at h
          by_cases hdil : (resolve_attributes sh x w (bind_inputs n x w rest)).dilations.any
              (fun d => decide (d ≠ 1)) = true
          · rw [if_pos hdil] at h; exact absurd h (by simp)
          · rw [if_neg hdil] at h
            cases hsz : resolve_output_size x w (resolve_attributes sh x w (bind_inputs n x w rest)) with
            | none => rw [hsz] at h; exact absurd h (by simp)
            | some dims =>
              rw [hsz] at h
              injection h with h
              refine ⟨x, w, rest, dims, rfl, by simpa [hin] using hlen, by omega, by omega, ?_, hsz, h.symm⟩
              intro d hd
              by_contra hne
              exact hdil (List.any_eq_true.mpr ⟨d, hd, by simpa using hne⟩)
    · rcases rest with _ | ⟨z, _ | ⟨wz, rest⟩⟩
      · simp [hin] at hlen
      · simp [hin] at hlen
      · rw [resolve_four opts sh n x w z wz rest hin] at h; exact absurd h (by simp)

theorem output_axis_some (x : Tensor) (n : ConvInteger) (i : Nat) (v : Int)
    (h : output_axis x n i = some v) :
    ∃ inp pad_begin pad_end kernel dilation stride : Int,
      x.data_dim[i + 2]? = some inp ∧ n.pads[i]? = some pad_begin ∧
      n.pads[i + 2]? = some pad_end ∧ n.kernel_shape[i]? = some kernel ∧
      n.dilations[i]? = some dilation ∧ n.strides[i]? = some stride ∧ stride ≠ 0 ∧
      v = Int.fdiv (inp + pad_begin + pad_end - ((kernel - 1) * dilation + 1)) stride + 1 := by
  unfold output_axis at h
  split at h
  · next inp pb pe k d s h1 h2 h3 h4 h5 h6 =>
    unfold output_spatial_size at h
    split at h
    · exact absurd h (by simp)
    · next hs =>
      injection h with h
      exact ⟨inp, pb, pe, k, d, s, h1, h2, h3, h4, h5, h6, hs, h.symm⟩
  · exact absurd h (by simp)

theorem resolve_output_size_some (x w : Tensor) (n : ConvInteger) (dims : List Int)
    (h : resolve_output_size x w n = some dims) :
    ∃ batch m out_h out_w : Int,
      x.data_dim[0]? = some batch ∧ w.data_dim[0]? = some m ∧
      output_axis x n 0 = some out_h ∧ output_axis x n 1 = some out_w ∧
      dims = [batch, m, out_h, out_w] := by
  unfold resolve_output_size at h
  split at h
  · next b m oh ow h1 h2 h3 h4 =>
    injection h with h
    exact ⟨b, m, oh, ow, h1, h2, h3, h4, h.symm⟩
  · exact absurd h (by simp)

/-! ## Lemmas on the emitted statements -/

theorem Store.get_filter_ne (σ : Store) (k lv : String) (h : lv ≠ k) :
    Store.get (σ.filter (fun e => decide (e.1 ≠ k))) lv = Store.get σ lv := by
  induction σ with
  | nil => rfl
  | cons e rest ih =>
    obtain ⟨k1, v1⟩ := e
    by_cases hk : k1 = k
    · subst hk
      have hne : ¬ k1 = lv := fun hh => h hh.symm
      rw [List.filter_cons_of_neg (by simp), ih]
      simp only [Store.get, if_neg hne]
    · rw [List.filter_cons_of_pos (by simpa using hk)]
      simp only [Store.get, ih]

/-- Reading after writing. -/
theorem Store.get_set (σ : Store) (k : String) (v : Int) (lv : String) :
    (σ.set k v).get lv = if lv = k then v else σ.get lv := by
  unfold Store.set
  by_cases h : lv = k
  · subst h; simp only [Store.get, if_pos]
  · have h1 : ¬ k = lv := fun hh => h hh.symm
    simp only [Store.get, if_neg h, if_neg h1, Store.get_filter_ne σ k lv h]

theorem wrap32_of_in_int32 (v : Int) (h : in_int32 v) : wrap32 v = v := by
  unfold in_int32 at h
  unfold wrap32
  omega

theorem wrap32_in_int32 (v : Int) : in_int32 (wrap32 v) := by
  unfold in_int32 wrap32
  omega

theorem wrap32_add_wrap32 (a b : Int) : wrap32 (wrap32 a + b) = wrap32 (a + b) := by
  unfold wrap32
  omega

theorem wrap32_mul16_ne_neg_one (t : Int) : wrap32 (t * 16) ≠ -1 := by
  unfold wrap32
  omega

/-- A truncating `int` division other than by 0 or -1 does not overflow. -/
theorem tdiv_in_int32 (c d : Int) (hc : in_int32 c) (h0 : d ≠ 0) (h1 : d ≠ -1) :
    in_int32 (Int.tdiv c d) := by
  unfold in_int32 at *
  rcases Int.lt_or_lt_of_ne h0 with hd | hd
  · -- d < 0
    have hd2 : (2 : Int) ≤ -d := by omega
    have e : Int.tdiv c d = -(Int.tdiv c (-d)) := by rw [Int.tdiv_neg]; simp
    rw [e]
    by_cases hcs : 0 ≤ c
    · rw [Int.tdiv_eq_ediv hcs (by omega)]
      have := Int.ediv_le_self (-d) hcs
      have := Int.ediv_nonneg hcs (show (0:Int) ≤ -d by omega)
      omega
    · have e2 : Int.tdiv c (-d) = -(Int.tdiv (-c) (-d)) := by rw [Int.neg_tdiv]; simp
      rw [e2, Int.tdiv_eq_ediv (by omega) (by omega)]
      have hq := Int.ediv_nonneg (show (0:Int) ≤ -c by omega) (show (0:Int) ≤ -d by omega)
      have hm := Int.ediv_mul_le (-c) (show -d ≠ 0 by omega)
      have h3 : (-c) / (-d) * 2 ≤ (-c) / (-d) * (-d) := Int.mul_le_mul_of_nonneg_left hd2 hq
      omega
  · by_cases hcs : 0 ≤ c
    · rw [Int.tdiv_eq_ediv hcs (by omega)]
      have := Int.ediv_le_self d hcs
      have := Int.ediv_nonneg hcs (show (0:Int) ≤ d by omega)
      omega
    · have e2 : Int.tdiv c d = -(Int.tdiv (-c) d) := by rw [Int.neg_tdiv]; simp
      rw [e2, Int.tdiv_eq_ediv (by omega) (by omega)]
      have := Int.ediv_le_self d (show (0:Int) ≤ -c by omega)
      have := Int.ediv_nonneg (show (0:Int) ≤ -c by omega) (show (0:Int) ≤ d by omega)
      omega

theorem exec_cell_init (opts : Options) (σ : Store) :
    exec_all (cell_init opts) σ = some (σ.set (dest opts) 0) := by
  cases opts with
  | mk q => cases q <;> rfl

/-- One run of the accumulate fragment at the position `p`. -/
theorem exec_cell_calc (opts : Options) (sh : Shared) (n : ConvInteger) (w : Tensor)
    (σ : Store) (p : Int × Int) :
    exec_all (cell_calc opts sh n w)
        ((σ.set "x[b][c][i0+k0][i1+k1]" p.1).set "w[m][c][k0][k1]" p.2) =
      some (((((σ.set "x[b][c][i0+k0][i1+k1]" p.1).set "w[m][c][k0][k1]" p.2).set "w_" p.2).set
        (dest opts) (accumulate (zero_point_value n σ) (σ.get (dest opts)) p))) := by
  cases opts with
  | mk q =>
    by_cases h3 : n.inputs.length ≥ 3 <;> cases q <;>
      simp [cell_calc, exec_all, CStmt.exec, CExpr.eval, x_zero_expr, dest, accumulate,
        zero_point_value, Store.get_set, h3]

theorem exec_cell_finalize_off (d : Int) (σ : Store) :
    exec_all (cell_finalize { quantize := false } d) σ = some σ := rfl

theorem exec_cell_finalize_zero (σ : Store) :
    exec_all (cell_finalize { quantize := true } 0) σ = none := by
  simp [cell_finalize, exec_all, CStmt.exec, CExpr.eval]

/-- The quantized finalize fragment stores the clamped 32-bit quotient. -/
theorem exec_cell_finalize_on (d : Int) (hd : d ≠ 0) (σ : Store) :
    (exec_all (cell_finalize { quantize := true } d) σ).map
        (fun σ1 => σ1.get "y[b][m][o0][o1]") =
      some (clamp (wrap32 (Int.tdiv (σ.get "cell") d)) (-127) 127) := by
  generalize ht : wrap32 (Int.tdiv (σ.get "cell") d) = t0
  by_cases h1 : t0 > 127
  · have h2 : ¬ ((127 : Int) < -127) := by omega
    simp [cell_finalize, exec_all, CStmt.exec, CExpr.eval, hd, Store.get_set, clamp, ht, h1, h2]
  · by_cases h2 : t0 < -127
    · simp [cell_finalize, exec_all, CStmt.exec, CExpr.eval, hd, Store.get_set, clamp, ht, h1, h2]
    · simp [cell_finalize, exec_all, CStmt.exec, CExpr.eval, hd, Store.get_set, clamp, ht, h1, h2]

theorem dest_ne_zero_point (opts : Options) : ¬ ("x_zero_point[0]" = dest opts) := by
  cases opts with
  | mk q => cases q <;> decide

/-- The accumulate phase folds `accumulate` over the positions into `dest` and
leaves the zero-point untouched. -/
theorem run_positions_cell_calc (opts : Options) (sh : Shared) (n : ConvInteger) (w : Tensor)
    (ps : List (Int × Int)) (σ : Store) :
    ∃ σ1, run_positions (cell_calc opts sh n w) ps σ = some σ1 ∧
      σ1.get (dest opts) = ps.foldl (accumulate (zero_point_value n σ)) (σ.get (dest opts)) ∧
      σ1.get "x_zero_point[0]" = σ.get "x_zero_point[0]" := by
  induction ps generalizing σ with
  | nil => exact ⟨σ, rfl, rfl, rfl⟩
  | cons p ps ih =>
    simp only [run_positions, exec_cell_calc]
    obtain ⟨σ1, h1, h2, h3⟩ := ih (((((σ.set "x[b][c][i0+k0][i1+k1]" p.1).set "w[m][c][k0][k1]"
      p.2).set "w_" p.2).set (dest opts) (accumulate (zero_point_value n σ) (σ.get (dest opts)) p)))
    have hz : ∀ v, (((((σ.set "x[b][c][i0+k0][i1+k1]" p.1).set "w[m][c][k0][k1]"
        p.2).set "w_" p.2).set (dest opts) v)).get "x_zero_point[0]" = σ.get "x_zero_point[0]" := by
      intro v
      simp [Store.get_set, dest_ne_zero_point]
    refine ⟨σ1, h1, ?_, ?_⟩
    · rw [h2]
      simp only [List.foldl_cons, zero_point_value, hz, Store.get_set, if_true]
    · rw [h3, hz]

theorem output_cell_off (sh : Shared) (n : ConvInteger) (w : Tensor) (hw : n.w = some w)
    (ps : List (Int × Int)) (σ : Store) :
    output_cell { quantize := false } sh n ps σ = some (cell_value (zero_point_value n σ) ps) := by
  obtain ⟨σ1, h1, h2, -⟩ := run_positions_cell_calc { quantize := false } sh n w ps
    (σ.set (dest { quantize := false }) 0)
  have hz : zero_point_value n (σ.set (dest { quantize := false }) 0) = zero_point_value n σ := by
    simp [zero_point_value, Store.get_set, dest_ne_zero_point]
  simp only [output_cell, hw, run_cell, exec_cell_init, h1, exec_cell_finalize_off, Option.map,
    if_false, Bool.false_eq_true]
  rw [hz] at h2
  simp only [Store.get_set, if_true] at h2
  exact congrArg some h2

theorem output_cell_on (sh : Shared) (n : ConvInteger) (w : Tensor) (hw : n.w = some w)
    (d : Int) (hdiv : divisor n = some d) (hd : d ≠ 0) (ps : List (Int × Int)) (σ : Store) :
    output_cell { quantize := true } sh n ps σ =
      some (clamp (wrap32 (Int.tdiv (cell_value (zero_point_value n σ) ps) d)) (-127) 127) := by
  obtain ⟨σ1, h1, h2, -⟩ := run_positions_cell_calc { quantize := true } sh n w ps
    (σ.set (dest { quantize := true }) 0)
  have hz : zero_point_value n (σ.set (dest { quantize := true }) 0) = zero_point_value n σ := by
    simp [zero_point_value, Store.get_set, dest_ne_zero_point]
  rw [hz] at h2
  simp only [Store.get_set, if_true] at h2
  simp only [output_cell, hw, hdiv, run_cell, exec_cell_init, h1, if_true]
  rw [exec_cell_finalize_on d hd σ1]
  have : σ1.get "cell" = cell_value (zero_point_value n σ) ps := h2
  rw [this]

theorem cell_value_in_int32 (zp : Int) (ps : List (Int × Int)) : in_int32 (cell_value zp ps) := by
  unfold cell_value
  induction ps using List.reverseRecOn with
  | nil => unfold in_int32; simp
  | append_singleton ps p _ =>
    rw [List.foldl_append]
    exact wrap32_in_int32 _

/-- Without overflow the 32-bit accumulation is the exact sum. -/
theorem foldl_accumulate_exact (zp : Int) (ps : List (Int × Int)) (acc : Int)
    (h : no_overflow zp acc ps = true) :
    ps.foldl (accumulate zp) acc = acc + cell_sum zp ps := by
  induction ps generalizing acc with
  | nil => simp [cell_sum]
  | cons p ps ih =>
    simp only [no_overflow, Bool.and_eq_true, decide_eq_true_eq] at h
    obtain ⟨⟨⟨h1, h2⟩, h3⟩, h4⟩ := h
    have e : accumulate zp acc p = acc + (p.1 - zp) * p.2 := by
      unfold accumulate
      rw [wrap32_of_in_int32 _ h1, wrap32_of_in_int32 _ h2, wrap32_of_in_int32 _ h3]
    rw [List.foldl_cons, e, ih _ h4]
    simp [cell_sum]
    ring

theorem cell_value_replicate (k : Nat) (c : Int) :
    (List.replicate k ((255 : Int), (255 : Int))).foldl (accumulate 0) (wrap32 c) =
      wrap32 (c + k * 65025) := by
  induction k generalizing c with
  | zero => simp
  | succ k ih =>
    have e : accumulate 0 (wrap32 c) (255, 255) = wrap32 (c + 65025) := by
      have e1 : wrap32 (wrap32 ((255 : Int) - 0) * 255) = 65025 := by decide
      simp only [accumulate, e1, wrap32_add_wrap32]
    rw [List.replicate_succ, List.foldl_cons, e, ih]
    congr 1
    push_cast
    ring

/-- The init fragment is the text of `cell_init`. -/
theorem print_output_cell_init_render (opts : Options) (sh : Shared) (y_idx : String) :
    print_output_cell_init opts sh y_idx = render_lines sh 3 (cell_init opts) := by
  cases opts with
  | mk q =>
    cases q <;>
      simp [print_output_cell_init, render_lines, cell_init, CStmt.render, CExpr.render,
        String.append_assoc] <;> rfl

/-- The accumulate fragment is the text of `cell_calc`. -/
theorem print_output_cell_calc_render (opts : Options) (sh : Shared) (n : ConvInteger)
    (w : Tensor) (hw : n.w = some w) (x_idx w_idx y_idx : String) :
    print_output_cell_calc opts sh n x_idx w_idx y_idx =
      some (render_lines sh 4 (cell_calc opts sh n w)) := by
  simp only [print_output_cell_calc, hw, render_lines, cell_calc, CStmt.render, CExpr.render,
    x_zero, x_zero_expr]
  split <;> simp [CExpr.render, String.append_assoc] <;> rfl

/-- The quantized finalize fragment is the text of `cell_finalize`. -/
theorem print_output_cell_finalize_render (sh : Shared) (n : ConvInteger) (d : Int)
    (hd : divisor n = some d) (y_idx : String) :
    print_output_cell_finalize { quantize := true } sh n y_idx =
      some (render_lines sh 3 (cell_finalize { quantize := true } d)) := by
  simp only [print_output_cell_finalize, hd, render_lines, cell_finalize, CStmt.render,
    CExpr.render]
  simp [String.append_assoc]
  rfl

/-- For positive kernel dimensions whose product times 16 fits an `int`, the
generator's divisor is that product. -/
theorem divisor_exact (n : ConvInteger) (k0 k1 : Int) (ks : List Int)
    (hk : n.kernel_shape = k0 :: k1 :: ks) (h0 : 1 ≤ k0) (h1 : 1 ≤ k1)
    (hlt : k0 * k1 * 16 < 2147483648) :
    divisor n = some (k0 * k1 * 16) ∧ 0 < k0 * k1 * 16 := by
  have hpos : 1 ≤ k0 * k1 := by nlinarith
  have e1 : wrap32 (k0 * k1) = k0 * k1 :=
    wrap32_of_in_int32 _ (by unfold in_int32; constructor <;> omega)
  have e2 : wrap32 (k0 * k1 * 16) = k0 * k1 * 16 :=
    wrap32_of_in_int32 _ (by unfold in_int32; constructor <;> omega)
  simp only [divisor, hk, e1, e2]
  exact ⟨trivial, by omega⟩

theorem clamp_range (v : Int) : -127 ≤ clamp v (-127) 127 ∧ clamp v (-127) 127 ≤ 127 := by
  unfold clamp
  split
  · omega
  · split <;> omega

theorem divisor_ne_neg_one (n : ConvInteger) (d : Int) (h : divisor n = some d) : d ≠ -1 := by
  unfold divisor at h
  split at h
  · injection h with h
    rw [← h]
    exact wrap32_mul16_ne_neg_one _
  · exact absurd h (by simp)

theorem resolve_attributes_inputs (sh : Shared) (x w : Tensor) (n : ConvInteger) :
    (resolve_attributes sh x w n).inputs = n.inputs := by
  simp only [resolve_attributes, resolve_kernel_shape, resolve_pads, resolve_dilations,
    resolve_strides]
  repeat' split
  all_goals rfl

theorem resolve_attributes_w (sh : Shared) (x w : Tensor) (n : ConvInteger) :
    (resolve_attributes sh x w n).w = n.w := by
  simp only [resolve_attributes, resolve_kernel_shape, resolve_pads, resolve_dilations,
    resolve_strides]
  repeat' split
  all_goals rfl

theorem resolve_attributes_input_params (sh : Shared) (x w : Tensor) (n : ConvInteger) :
    (resolve_attributes sh x w n).input_params = n.input_params := by
  simp only [resolve_attributes, resolve_kernel_shape, resolve_pads, resolve_dilations,
    resolve_strides]
  repeat' split
  all_goals rfl

theorem cell_sum_replicate (k : Nat) (zp x w : Int) :
    cell_sum zp (List.replicate k (x, w)) = k * ((x - zp) * w) := by
  simp [cell_sum, List.map_replicate, List.sum_replicate]

/-! ## The claims -/

/-- C1. Whenever `resolve` succeeds it has registered exactly one output
tensor, under the name "y", and that tensor's element type is INT8 when
`options.quantize` is on and INT32 when it is off; nothing else (input types,
shapes, zero-point inputs) enters the choice. -/
theorem resolve_output_type (opts : Options) (sh : Shared) (n n' : ConvInteger)
    (h : resolve opts sh n = Outcome.ok n') :
    ∃ rv : Tensor, n'.output_params = n.output_params ++ [(rv, "y")] ∧ n'.y = some rv ∧
      rv.data_type = (if opts.quantize then TensorProto_DataType.INT8
                      else TensorProto_DataType.INT32) := by
  obtain ⟨x, w, rest, dims, -, -, -, -, -, -, hn⟩ := resolve_ok_inv opts sh n n' h
  subst hn
  exact ⟨output_tensor opts dims, by simp [register_output], rfl, rfl⟩

/-- C1, instance. Scenario B: `resolve` succeeds on `nodeA` with quantization on and registers
an INT8 tensor as "y". -/
theorem resolve_output_type_witness :
    resolve { quantize := true } plainShared nodeA = Outcome.ok resolvedB ∧
      ∃ rv : Tensor,
        resolvedB.output_params = nodeA.output_params ++ [(rv, "y")] ∧ resolvedB.y = some rv ∧
        rv.data_type = (if ({ quantize := true } : Options).quantize then
                          TensorProto_DataType.INT8
                        else TensorProto_DataType.INT32) :=
  ⟨by decide, resolve_output_type { quantize := true } plainShared nodeA resolvedB (by decide)⟩

/-- C2. If the data tensor's rank is not 4, or group is not 1, or some
resolved dilation is not 1, or a 4th input is present, `resolve` ends in an
`ERROR` (one of the four of the source) and the state it leaves has no output
registered and no output tensor set: `register_output` was not reached. -/
theorem resolve_rejects (opts : Options) (sh : Shared) (n : ConvInteger) (x w : Tensor)
    (rest : List Tensor) (hin : n.inputs = x :: w :: rest)
    (hbad : x.data_dim.length ≠ 4 ∨ n.group ≠ 1 ∨
      (∃ d ∈ (resolve_dilations x n).dilations, d ≠ 1) ∨ n.inputs.length > 3) :
    ∃ why n', resolve opts sh n = Outcome.error why n' ∧
      why ∈ [UnsupportedRank, UnsupportedGrouping, UnsupportedDilation,
        UnsupportedWeightZeroPoint] ∧
      n'.output_params = n.output_params ∧ n'.y = n.y := by
  by_cases hlen : n.inputs.length ≤ 3
  · rw [resolve_upto_three opts sh n x w rest hin hlen]
    by_cases hr : x.data_dim.length ≠ 4
    · rw [if_pos hr]; exact ⟨_, _, rfl, by simp, rfl, rfl⟩
    · rw [if_neg hr]
      by_cases hg : (resolve_attributes sh x w (bind_inputs n x w rest)).group ≠ 1
      · rw [if_pos hg]; exact ⟨_, _, rfl, by simp, by simp, by simp⟩
      · rw [if_neg hg]
        by_cases hdil : (resolve_attributes sh x w (bind_inputs n x w rest)).dilations.any
            (fun d => decide (d ≠ 1)) = true
        · rw [if_pos hdil]; exact ⟨_, _, rfl, by simp, by simp, by simp⟩
        · exfalso
          rcases hbad with hb | hb | hb | hb
          · exact hr hb
          · exact hg (by simpa using hb)
          · apply hdil
            rw [resolved_dilations]
            obtain ⟨d, hdm, hne⟩ := hb
            exact List.any_eq_true.mpr ⟨d, hdm, by simpa using hne⟩
          · omega
  · rcases rest with _ | ⟨z, _ | ⟨wz, rest⟩⟩
    · simp [hin] at hlen
    · simp [hin] at hlen
    · rw [resolve_four opts sh n x w z wz rest hin]
      exact ⟨_, _, rfl, by simp, rfl, rfl⟩

/-- C2, instance. Scenario D (group = 2): `resolve` aborts and registers no output. -/
theorem resolve_rejects_witness :
    (nodeGrouped.inputs = [dataA, weightsA]) ∧
    (dataA.data_dim.length ≠ 4 ∨ nodeGrouped.group ≠ 1 ∨
      (∃ d ∈ (resolve_dilations dataA nodeGrouped).dilations, d ≠ 1) ∨
      nodeGrouped.inputs.length > 3) ∧
    ∃ why n', resolve { quantize := false } plainShared nodeGrouped = Outcome.error why n' ∧
      why ∈ [UnsupportedRank, UnsupportedGrouping, UnsupportedDilation,
        UnsupportedWeightZeroPoint] ∧
      n'.output_params = nodeGrouped.output_params ∧ n'.y = nodeGrouped.y :=
  ⟨rfl, Or.inr (Or.inl (by decide)),
    resolve_rejects { quantize := false } plainShared nodeGrouped dataA weightsA [] rfl
      (Or.inr (Or.inl (by decide)))⟩

/-- C3, counterexample. A node with a rank-5 data tensor and a 4th input does
not fail with the rank error: `resolve` aborts with "unimplemented: weight zero
points". -/
theorem rank_check_is_not_first :
    (nodeRank5WithWeightZero.inputs.head?.map (fun t => t.data_dim.length) = some 5) ∧
    nodeRank5WithWeightZero.inputs.length = 4 ∧
    (resolve { quantize := false } plainShared nodeRank5WithWeightZero).why
      = some UnsupportedWeightZeroPoint ∧
    (resolve { quantize := false } plainShared nodeRank5WithWeightZero).why
      ≠ some UnsupportedRank := by
  decide

/-- C3, amended. `resolve` binds the zero-point inputs and rejects a 4th input
before it looks at the rank: a node whose data tensor rank is not 4 fails with
the weight zero-point error when it has a 4th input, and with the rank error
('non 2D images') only when it has at most three inputs. -/
theorem weight_zero_point_check_precedes_rank_check (opts : Options) (sh : Shared)
    (n : ConvInteger) (x w : Tensor) (rest : List Tensor) (hin : n.inputs = x :: w :: rest)
    (hrank : x.data_dim.length ≠ 4) :
    (resolve opts sh n).why =
      some (if n.inputs.length > 3 then UnsupportedWeightZeroPoint else UnsupportedRank) := by
  by_cases hlen : n.inputs.length ≤ 3
  · rw [resolve_upto_three opts sh n x w rest hin hlen, if_pos hrank,
      if_neg (by omega)]
    rfl
  · rcases rest with _ | ⟨z, _ | ⟨wz, rest⟩⟩
    · simp [hin] at hlen
    · simp [hin] at hlen
    · rw [resolve_four opts sh n x w z wz rest hin, if_pos (by omega)]
      rfl

/-- C3, instance. The rank-5 node with a 4th input fails with the weight zero-point error. -/
theorem weight_zero_point_check_precedes_rank_check_witness :
    (nodeRank5WithWeightZero.inputs =
      { dataA with data_dim := [1, 1, 3, 3, 3] } :: weightsA :: [zeroPoint "xz", zeroPoint "wz"]) ∧
    (({ dataA with data_dim := [1, 1, 3, 3, 3] } : Tensor).data_dim.length ≠ 4) ∧
    (resolve { quantize := true } plainShared nodeRank5WithWeightZero).why =
      some (if nodeRank5WithWeightZero.inputs.length > 3 then UnsupportedWeightZeroPoint
            else UnsupportedRank) :=
  ⟨rfl, by decide,
    weight_zero_point_check_precedes_rank_check { quantize := true } plainShared
      nodeRank5WithWeightZero { dataA with data_dim := [1, 1, 3, 3, 3] } weightsA
      [zeroPoint "xz", zeroPoint "wz"] rfl (by decide)⟩

/-- C4, counterexample. A node with rank-4 data, two inputs, dilations 2 and
group 2 does not fail with the dilation error: `resolve` aborts with the
grouping error. -/
theorem dilation_check_is_not_before_group_check :
    (nodeDilatedGrouped.inputs.head?.map (fun t => t.data_dim.length) = some 4) ∧
    nodeDilatedGrouped.inputs.length ≤ 3 ∧
    (resolve_dilations dataA nodeDilatedGrouped).dilations = [2, 2] ∧
    nodeDilatedGrouped.group = 2 ∧
    (resolve { quantize := false } plainShared nodeDilatedGrouped).why
      = some UnsupportedGrouping ∧
    (resolve { quantize := false } plainShared nodeDilatedGrouped).why
      ≠ some UnsupportedDilation := by
  decide

/-- C4, amended. The group check precedes the dilation check: a node with a
rank-4 data tensor, at most 3 inputs and some resolved dilation different from
1 fails with the grouping error when group is not 1, and with the dilation
error only when group is 1. -/
theorem group_check_precedes_dilation_check (opts : Options) (sh : Shared)
    (n : ConvInteger) (x w : Tensor) (rest : List Tensor) (hin : n.inputs = x :: w :: rest)
    (hrank : x.data_dim.length = 4) (hlen : n.inputs.length ≤ 3)
    (hdil : ∃ d ∈ (resolve_dilations x n).dilations, d ≠ 1) :
    (resolve opts sh n).why =
      some (if n.group ≠ 1 then UnsupportedGrouping else UnsupportedDilation) := by
  rw [resolve_upto_three opts sh n x w rest hin hlen, if_neg (by omega)]
  have hg : (resolve_attributes sh x w (bind_inputs n x w rest)).group = n.group := by simp
  rw [hg]
  by_cases hgr : n.group ≠ 1
  · rw [if_pos hgr, if_pos hgr]; rfl
  · rw [if_neg hgr, if_neg hgr]
    have : (resolve_attributes sh x w (bind_inputs n x w rest)).dilations.any
        (fun d => decide (d ≠ 1)) = true := by
      rw [resolved_dilations]
      obtain ⟨d, hdm, hne⟩ := hdil
      exact List.any_eq_true.mpr ⟨d, hdm, by simpa using hne⟩
    rw [if_pos this]; rfl

/-- C4, instance. The dilated and grouped node fails with the grouping error. -/
theorem group_check_precedes_dilation_check_witness :
    (nodeDilatedGrouped.inputs = dataA :: weightsA :: []) ∧ dataA.data_dim.length = 4 ∧
    nodeDilatedGrouped.inputs.length ≤ 3 ∧
    (∃ d ∈ (resolve_dilations dataA nodeDilatedGrouped).dilations, d ≠ 1) ∧
    (resolve { quantize := true } plainShared nodeDilatedGrouped).why =
      some (if nodeDilatedGrouped.group ≠ 1 then UnsupportedGrouping
            else UnsupportedDilation) :=
  ⟨rfl, by decide, by decide, ⟨2, by decide, by decide⟩,
    group_check_precedes_dilation_check { quantize := true } plainShared nodeDilatedGrouped
      dataA weightsA [] rfl (by decide) (by decide) ⟨2, by decide, by decide⟩⟩

/-- C5, counterexample. For the 1x1 convolution over 40000 input channels with
every data value 255, every weight 255 and no zero-point input, the exact sum
over the 40000 kernel positions is 2601000000, more than an `int32_t` cell can
hold: the generated code leaves -1693967296 in the output cell. -/
theorem unquantized_cell_overflows :
    resolve { quantize := false } plainShared nodeWide = Outcome.ok resolvedWide ∧
    output_cell { quantize := false } plainShared resolvedWide
        (List.replicate 40000 (255, 255)) zeroStore = some (-1693967296) ∧
    cell_sum (zero_point_value resolvedWide zeroStore) (List.replicate 40000 (255, 255))
      = 2601000000 ∧
    output_cell { quantize := false } plainShared resolvedWide
        (List.replicate 40000 (255, 255)) zeroStore ≠
      some (cell_sum (zero_point_value resolvedWide zeroStore)
        (List.replicate 40000 (255, 255))) := by
  have hz : zero_point_value resolvedWide zeroStore = 0 := by decide
  have hcell : output_cell { quantize := false } plainShared resolvedWide
      (List.replicate 40000 (255, 255)) zeroStore = some (-1693967296) := by
    rw [output_cell_off plainShared resolvedWide _ rfl, hz]
    have h := cell_value_replicate 40000 0
    have h0 : wrap32 0 = 0 := by decide
    rw [h0] at h
    unfold cell_value
    rw [h]
    decide
  have hsum : cell_sum (zero_point_value resolvedWide zeroStore)
      (List.replicate 40000 (255, 255)) = 2601000000 := by
    rw [hz, cell_sum_replicate]
    norm_num
  refine ⟨by decide, hcell, hsum, ?_⟩
  rw [hcell, hsum]
  decide

/-- C5, amended. With quantization off, `print_output_cell_finalize` emits no
text, `print_output_cell_init` emits the assignment of 0 to `y[b][m][o0][o1]`,
and the accumulate fragment adds `(x - x_zero) * w_` into that same cell.  For
every sequence of kernel positions, running init, one accumulate per position
and finalize leaves in the output cell the 32-bit accumulation `cell_value`;
this is the exact sum of `(x - x_zero) * w`, with no scaling or clamping,
whenever no difference, product or running sum leaves the 32-bit signed range
(Scenario A gives 9). -/
theorem unquantized_cell_sum (sh : Shared) (n : ConvInteger) (w : Tensor) (hw : n.w = some w)
    (ps : List (Int × Int)) (σ : Store) (x_idx w_idx y_idx : String)
    (hfit : no_overflow (zero_point_value n σ) 0 ps = true) :
    print_output_cell_finalize { quantize := false } sh n y_idx = some "" ∧
    print_output_cell_init { quantize := false } sh y_idx =
      sh.INDT 3 ++ "y[b][m][o0][o1] = 0;" ++ "\n" ∧
    print_output_cell_init { quantize := false } sh y_idx =
      render_lines sh 3 [CStmt.assign "y[b][m][o0][o1]" (CExpr.lit 0)] ∧
    print_output_cell_calc { quantize := false } sh n x_idx w_idx y_idx =
      some (render_lines sh 4
        [CStmt.decl (sh.data_type_str w) "w_" (CExpr.const_ref "w[m][c][k0][k1]"),
         CStmt.add_assign "y[b][m][o0][o1]"
           (CExpr.mul
             (CExpr.paren (CExpr.sub (CExpr.ref "x[b][c][i0+k0][i1+k1]") (x_zero_expr n)))
             (CExpr.ref "w_"))]) ∧
    output_cell { quantize := false } sh n ps σ = some (cell_value (zero_point_value n σ) ps) ∧
    output_cell { quantize := false } sh n ps σ = some (cell_sum (zero_point_value n σ) ps) := by
  have hval := output_cell_off sh n w hw ps σ
  have hex := foldl_accumulate_exact (zero_point_value n σ) ps 0 hfit
  refine ⟨rfl, rfl, print_output_cell_init_render _ sh y_idx,
    print_output_cell_calc_render _ sh n w hw x_idx w_idx y_idx, hval, ?_⟩
  rw [hval]
  unfold cell_value
  rw [hex, zero_add]

/-- C5, instance. Scenario A: data all 2, weights all 1, zero-point 1, 3x3 kernel: the nine
positions give 9. -/
theorem unquantized_cell_sum_witness :
    resolvedA.w = some weightsA ∧
    no_overflow (zero_point_value resolvedA (zeroStore.set "x_zero_point[0]" 1)) 0
      (List.replicate 9 (2, 1)) = true ∧
    cell_sum (zero_point_value resolvedA (zeroStore.set "x_zero_point[0]" 1))
      (List.replicate 9 (2, 1)) = 9 ∧
    output_cell { quantize := false } plainShared resolvedA (List.replicate 9 (2, 1))
      (zeroStore.set "x_zero_point[0]" 1) =
      some (cell_sum (zero_point_value resolvedA (zeroStore.set "x_zero_point[0]" 1))
        (List.replicate 9 (2, 1))) :=
  ⟨rfl, by decide, by decide,
    (unquantized_cell_sum plainShared resolvedA weightsA rfl (List.replicate 9 (2, 1))
      (zeroStore.set "x_zero_point[0]" 1) "" "" "" (by decide)).2.2.2.2.2⟩

/-- C6. With quantization on, init declares the `int32_t` accumulator `cell`
set to 0, accumulate adds into `cell`, and finalize (emitted with the divisor
`kernel_shape[0]*kernel_shape[1]*16` as computed by the generator, here
non-zero) stores `clamp(cell / divisor, -127, 127)` into the output cell, `/`
truncating toward zero.  So for every accumulator value `c` the stored result
lies in [-127, 127], hence fits an `int8_t`, and the whole run over any kernel
positions stores the clamped quotient of the accumulated `cell`. -/
theorem quantized_cell_clamped (sh : Shared) (n : ConvInteger) (w : Tensor) (hw : n.w = some w)
    (d : Int) (hdiv : divisor n = some d) (hd : d ≠ 0)
    (c : Int) (hc : in_int32 c) (τ : Store) (hτ : τ.get "cell" = c)
    (ps : List (Int × Int)) (σ : Store) (x_idx w_idx y_idx : String) :
    print_output_cell_init { quantize := true } sh y_idx =
      render_lines sh 3 [CStmt.decl "int32_t" "cell" (CExpr.lit 0)] ∧
    print_output_cell_calc { quantize := true } sh n x_idx w_idx y_idx =
      some (render_lines sh 4
        [CStmt.decl (sh.data_type_str w) "w_" (CExpr.const_ref "w[m][c][k0][k1]"),
         CStmt.add_assign "cell"
           (CExpr.mul
             (CExpr.paren (CExpr.sub (CExpr.ref "x[b][c][i0+k0][i1+k1]") (x_zero_expr n)))
             (CExpr.ref "w_"))]) ∧
    print_output_cell_finalize { quantize := true } sh n y_idx =
      some (render_lines sh 3
        [CStmt.decl "int32_t" "tmp" (CExpr.div (CExpr.ref "cell") (CExpr.lit d)),
         CStmt.assign "tmp"
           (CExpr.cond (CExpr.gt (CExpr.ref "tmp") (CExpr.lit 127)) (CExpr.lit 127)
             (CExpr.ref "tmp")),
         CStmt.assign "tmp"
           (CExpr.cond (CExpr.lt (CExpr.ref "tmp") (CExpr.lit (-127))) (CExpr.lit (-127))
             (CExpr.ref "tmp")),
         CStmt.assign "y[b][m][o0][o1]" (CExpr.ref "tmp")]) ∧
    (exec_all (cell_finalize { quantize := true } d) τ).map
        (fun τ1 => τ1.get "y[b][m][o0][o1]") = some (clamp (Int.tdiv c d) (-127) 127) ∧
    (-127 ≤ clamp (Int.tdiv c d) (-127) 127 ∧ clamp (Int.tdiv c d) (-127) 127 ≤ 127) ∧
    (-128 ≤ clamp (Int.tdiv c d) (-127) 127 ∧ clamp (Int.tdiv c d) (-127) 127 ≤ 127) ∧
    output_cell { quantize := true } sh n ps σ =
      some (clamp (Int.tdiv (cell_value (zero_point_value n σ) ps) d) (-127) 127) := by
  have hn1 := divisor_ne_neg_one n d hdiv
  have hr := clamp_range (Int.tdiv c d)
  refine ⟨print_output_cell_init_render _ sh y_idx,
    print_output_cell_calc_render _ sh n w hw x_idx w_idx y_idx,
    print_output_cell_finalize_render sh n d hdiv y_idx, ?_, hr, ⟨by omega, hr.2⟩, ?_⟩
  · rw [exec_cell_finalize_on d hd τ, hτ,
      wrap32_of_in_int32 _ (tdiv_in_int32 c d hc hd hn1)]
  · rw [output_cell_on sh n w hw d hdiv hd ps σ,
      wrap32_of_in_int32 _ (tdiv_in_int32 _ d (cell_value_in_int32 _ _) hd hn1)]

/-- C6, instance. Scenario B: accumulator 9, 3x3 kernel, divisor 144, result 0. -/
theorem quantized_cell_clamped_witness :
    resolvedB.w = some weightsA ∧ divisor resolvedB = some 144 ∧ (144 : Int) ≠ 0 ∧
    in_int32 9 ∧ (zeroStore.set "cell" 9).get "cell" = 9 ∧
    cell_value (zero_point_value resolvedB (zeroStore.set "x_zero_point[0]" 1))
      (List.replicate 9 (2, 1)) = 9 ∧
    clamp (Int.tdiv 9 144) (-127) 127 = 0 ∧
    output_cell { quantize := true } plainShared resolvedB (List.replicate 9 (2, 1))
      (zeroStore.set "x_zero_point[0]" 1) =
      some (clamp (Int.tdiv
        (cell_value (zero_point_value resolvedB (zeroStore.set "x_zero_point[0]" 1))
          (List.replicate 9 (2, 1))) 144) (-127) 127) :=
  ⟨rfl, by decide, by decide, by decide, by decide, by decide, by decide,
    (quantized_cell_clamped plainShared resolvedB weightsA rfl 144 (by decide) (by decide)
      9 (by decide) (zeroStore.set "cell" 9) (by decide) (List.replicate 9 (2, 1))
      (zeroStore.set "x_zero_point[0]" 1) "" "" "").2.2.2.2.2.2⟩

/-- C7, counterexample. For the 1x1 kernel (divisor 16) and the accumulator -1
(data value 0, zero-point 1, weight 1) the generated code stores 0, whereas
`clamp(floor(-1 / 16), -127, 127)` is -1.  Besides, positive kernel dimensions
alone do not make the emitted divisor `kernel_h * kernel_w * 16`: for a
16384 x 16384 kernel that product is 2^32, the generator's `int` is 0, and
the emitted `cell/0` stores nothing. -/
theorem quantized_cell_is_not_floor :
    resolve { quantize := true } plainShared nodePixel = Outcome.ok resolvedPixel ∧
    divisor resolvedPixel = some 16 ∧
    cell_value (zero_point_value resolvedPixel (zeroStore.set "x_zero_point[0]" 1)) [(0, 1)]
      = -1 ∧
    output_cell { quantize := true } plainShared resolvedPixel [(0, 1)]
      (zeroStore.set "x_zero_point[0]" 1) = some 0 ∧
    clamp (Int.fdiv (-1) (1 * 1 * 16)) (-127) 127 = -1 ∧
    output_cell { quantize := true } plainShared resolvedPixel [(0, 1)]
      (zeroStore.set "x_zero_point[0]" 1) ≠
      some (clamp (Int.fdiv
        (cell_value (zero_point_value resolvedPixel (zeroStore.set "x_zero_point[0]" 1))
          [(0, 1)]) (1 * 1 * 16)) (-127) 127) ∧
    resolve { quantize := true } plainShared nodeHuge = Outcome.ok resolvedHuge ∧
    divisor resolvedHuge = some 0 ∧
    output_cell { quantize := true } plainShared resolvedHuge [] zeroStore = none := by
  decide

/-- C7, amended. With quantization on, for every 32-bit accumulator value and
every kernel shape with positive dimensions (whose product times 16 fits an
`int`), the value stored in the output cell is the quotient by
`kernel_h * kernel_w * 16` rounded toward zero, clamped to [-127, 127]: the
floor of the exact quotient for a non-negative accumulator, and minus the
floor of the negated quotient (the ceiling) for a negative one. -/
theorem quantized_cell_truncates (sh : Shared) (n : ConvInteger) (k0 k1 : Int) (ks : List Int)
    (hk : n.kernel_shape = k0 :: k1 :: ks) (h0 : 1 ≤ k0) (h1 : 1 ≤ k1)
    (hlt : k0 * k1 * 16 < 2147483648)
    (c : Int) (hc : in_int32 c) (τ : Store) (hτ : τ.get "cell" = c) (y_idx : String) :
    print_output_cell_finalize { quantize := true } sh n y_idx =
      some (render_lines sh 3 (cell_finalize { quantize := true } (k0 * k1 * 16))) ∧
    (exec_all (cell_finalize { quantize := true } (k0 * k1 * 16)) τ).map
        (fun τ1 => τ1.get "y[b][m][o0][o1]") =
      some (clamp (if 0 ≤ c then Int.fdiv c (k0 * k1 * 16)
                   else -(Int.fdiv (-c) (k0 * k1 * 16))) (-127) 127) := by
  obtain ⟨hdiv, hpos⟩ := divisor_exact n k0 k1 ks hk h0 h1 hlt
  have hd : k0 * k1 * 16 ≠ 0 := by omega
  have hn1 := divisor_ne_neg_one n _ hdiv
  refine ⟨print_output_cell_finalize_render sh n _ hdiv y_idx, ?_⟩
  rw [exec_cell_finalize_on _ hd τ, hτ, wrap32_of_in_int32 _ (tdiv_in_int32 c _ hc hd hn1)]
  by_cases hcs : 0 ≤ c
  · rw [if_pos hcs, Int.tdiv_eq_ediv hcs (by omega), Int.fdiv_eq_ediv _ (by omega)]
  · have e : Int.tdiv c (k0 * k1 * 16) = -(Int.tdiv (-c) (k0 * k1 * 16)) := by
      rw [Int.neg_tdiv]; simp
    rw [if_neg hcs, e, Int.tdiv_eq_ediv (by omega) (by omega), Int.fdiv_eq_ediv _ (by omega)]

/-- C7, instance. Accumulator -1000 with the 1x1 kernel: -1000 / 16 rounds toward zero to
-62 (the floor is -63). -/
theorem quantized_cell_truncates_witness :
    resolvedPixel.kernel_shape = 1 :: 1 :: [] ∧ (1 : Int) ≤ 1 ∧
    (1 : Int) * 1 * 16 < 2147483648 ∧ in_int32 (-1000) ∧
    (zeroStore.set "cell" (-1000)).get "cell" = -1000 ∧
    (exec_all (cell_finalize { quantize := true } (1 * 1 * 16)) (zeroStore.set "cell" (-1000))).map
        (fun τ1 => τ1.get "y[b][m][o0][o1]") =
      some (clamp (if (0 : Int) ≤ -1000 then Int.fdiv (-1000) (1 * 1 * 16)
                   else -(Int.fdiv (- -1000) (1 * 1 * 16))) (-127) 127) ∧
    clamp (if (0 : Int) ≤ -1000 then Int.fdiv (-1000) (1 * 1 * 16)
           else -(Int.fdiv (- -1000) (1 * 1 * 16))) (-127) 127 = -62 :=
  ⟨rfl, by decide, by decide, by decide, by decide,
    (quantized_cell_truncates plainShared resolvedPixel 1 1 [] rfl (by decide) (by decide)
      (by decide) (-1000) (by decide) (zeroStore.set "cell" (-1000)) (by decide) "").2,
    by decide⟩

/-- C8. After a successful `resolve`, the accumulate fragment subtracts the
literal 0 exactly when `resolve` bound no `x_zero_point` (fewer than 3 inputs),
and element 0 of `x_zero_point` (written through `constant_acces_code`) exactly
when `resolve` bound the 3rd input under that name: the emitting condition
`inputs.size() >= 3` and the binding condition `inputs.size() > 2` agree. -/
theorem zero_point_binding_agrees (opts : Options) (sh : Shared) (n n' : ConvInteger)
    (h : resolve opts sh n = Outcome.ok n') (x_idx w_idx y_idx : String) :
    ∃ x w : Tensor,
      n.inputs[0]? = some x ∧ n.inputs[1]? = some w ∧ n'.w = some w ∧ n'.inputs = n.inputs ∧
      print_output_cell_calc opts sh n' x_idx w_idx y_idx =
        some (sh.INDT 4 ++ sh.data_type_str w ++ " w_ = " ++
            sh.constant_acces_code "w[m][c][k0][k1]" ++ ";" ++ "\n" ++
          (sh.INDT 4 ++ dest opts ++ "+= (x[b][c][i0+k0][i1+k1] - " ++ x_zero sh n' ++
            ") * w_;" ++ "\n")) ∧
      (n'.inputs.length ≥ 3 ↔ n.inputs.length > 2) ∧
      (n.inputs.length < 3 →
        x_zero sh n' = "0" ∧ x_zero_expr n' = CExpr.lit 0 ∧
        n'.input_params = n.input_params ++ [(x, "x"), (w, "w")]) ∧
      (n.inputs.length ≥ 3 →
        ∃ z, n.inputs[2]? = some z ∧
          x_zero sh n' = sh.constant_acces_code "x_zero_point[0]" ∧
          x_zero_expr n' = CExpr.const_ref "x_zero_point[0]" ∧
          n'.input_params = n.input_params ++ [(x, "x"), (w, "w"), (z, "x_zero_point")]) := by
  obtain ⟨x, w, rest, dims, hin, hlen, -, -, -, -, hn⟩ := resolve_ok_inv opts sh n n' h
  have hi : n'.inputs = n.inputs := by
    subst hn; simp [register_output, resolve_attributes_inputs, bind_inputs]
  have hw : n'.w = some w := by
    subst hn; simp [register_output, resolve_attributes_w, bind_inputs]
  have hp : n'.input_params = n.input_params ++ [(x, "x"), (w, "w")] ++
      (rest.take 1).map (fun z => (z, "x_zero_point")) := by
    subst hn; simp [register_output, resolve_attributes_input_params, bind_inputs]
  refine ⟨x, w, by simp [hin], by simp [hin], hw, hi, ?_, by rw [hi]; omega, ?_, ?_⟩
  · simp only [print_output_cell_calc, hw]
  · intro hlt
    have hr : rest = [] := by
      rcases rest with _ | ⟨z, rest⟩
      · rfl
      · simp only [hin, List.length_cons] at hlt; omega
    have hnot : ¬ n'.inputs.length ≥ 3 := by rw [hi]; omega
    subst hr
    exact ⟨by simp only [x_zero, if_neg hnot], by simp only [x_zero_expr, if_neg hnot],
      by simpa using hp⟩
  · intro hge
    have hyes : n'.inputs.length ≥ 3 := by rw [hi]; exact hge
    rcases rest with _ | ⟨z, rest⟩
    · simp [hin] at hge
    · have hr : rest = [] := by
        rcases rest with _ | ⟨z2, rest⟩
        · rfl
        · simp [hin] at hlen
      subst hr
      exact ⟨z, by simp [hin], by simp only [x_zero, if_pos hyes],
        by simp only [x_zero_expr, if_pos hyes], by simpa using hp⟩

/-- C8, instance. Scenario A node (three inputs): the 3rd input is bound as `x_zero_point` and
the accumulate fragment subtracts `x_zero_point[0]`. -/
theorem zero_point_binding_agrees_witness :
    resolve { quantize := false } plainShared nodeA = Outcome.ok resolvedA ∧
    x_zero plainShared resolvedA = "x_zero_point[0]" ∧
    ∃ x w : Tensor,
      nodeA.inputs[0]? = some x ∧ nodeA.inputs[1]? = some w ∧ resolvedA.w = some w ∧
      resolvedA.inputs = nodeA.inputs ∧
      print_output_cell_calc { quantize := false } plainShared resolvedA "" "" "" =
        some (plainShared.INDT 4 ++ plainShared.data_type_str w ++ " w_ = " ++
            plainShared.constant_acces_code "w[m][c][k0][k1]" ++ ";" ++ "\n" ++
          (plainShared.INDT 4 ++ dest { quantize := false } ++
            "+= (x[b][c][i0+k0][i1+k1] - " ++ x_zero plainShared resolvedA ++
            ") * w_;" ++ "\n")) ∧
      (resolvedA.inputs.length ≥ 3 ↔ nodeA.inputs.length > 2) ∧
      (nodeA.inputs.length < 3 →
        x_zero plainShared resolvedA = "0" ∧ x_zero_expr resolvedA = CExpr.lit 0 ∧
        resolvedA.input_params = nodeA.input_params ++ [(x, "x"), (w, "w")]) ∧
      (nodeA.inputs.length ≥ 3 →
        ∃ z, nodeA.inputs[2]? = some z ∧
          x_zero plainShared resolvedA = plainShared.constant_acces_code "x_zero_point[0]" ∧
          x_zero_expr resolvedA = CExpr.const_ref "x_zero_point[0]" ∧
          resolvedA.input_params =
            nodeA.input_params ++ [(x, "x"), (w, "w"), (z, "x_zero_point")]) :=
  ⟨by decide, by decide,
    zero_point_binding_agrees { quantize := false } plainShared nodeA resolvedA (by decide)
      "" "" ""⟩

/-- C9. Whenever `resolve` succeeds (the data tensor then has rank 4, group is
1 and every dilation is 1), the registered output tensor has rank 4 and shape
(data batch, weights' leading dimension, out_h, out_w), each output spatial
size being `floor((in + pad_begin + pad_end - kernel) / stride) + 1` for its
axis; this is the value of the general formula
`floor((in + pad_begin + pad_end - ((kernel-1)*dilation+1)) / stride) + 1`
(`output_spatial_size`) at the resolved dilation, which is 1. -/
theorem resolve_output_shape (opts : Options) (sh : Shared) (n n' : ConvInteger)
    (h : resolve opts sh n = Outcome.ok n') :
    ∃ (x w rv : Tensor) (batch chan in_h in_w m k0 k1 d0 d1 s0 s1 pb0 pb1 pe0 pe1 : Int),
      n.inputs[0]? = some x ∧ n.inputs[1]? = some w ∧
      n'.output_params = n.output_params ++ [(rv, "y")] ∧
      x.data_dim = [batch, chan, in_h, in_w] ∧ w.data_dim[0]? = some m ∧
      n'.kernel_shape[0]? = some k0 ∧ n'.kernel_shape[1]? = some k1 ∧
      n'.dilations[0]? = some d0 ∧ n'.dilations[1]? = some d1 ∧
      n'.strides[0]? = some s0 ∧ n'.strides[1]? = some s1 ∧
      n'.pads[0]? = some pb0 ∧ n'.pads[1]? = some pb1 ∧
      n'.pads[2]? = some pe0 ∧ n'.pads[3]? = some pe1 ∧
      n'.group = 1 ∧ (∀ d ∈ n'.dilations, d = 1) ∧ s0 ≠ 0 ∧ s1 ≠ 0 ∧
      rv.data_dim.length = 4 ∧
      rv.data_dim = [batch, m, Int.fdiv (in_h + pb0 + pe0 - k0) s0 + 1,
                     Int.fdiv (in_w + pb1 + pe1 - k1) s1 + 1] ∧
      output_spatial_size in_h pb0 pe0 k0 d0 s0 = some (Int.fdiv (in_h + pb0 + pe0 - k0) s0 + 1) ∧
      output_spatial_size in_w pb1 pe1 k1 d1 s1 = some (Int.fdiv (in_w + pb1 + pe1 - k1) s1 + 1) := by
  obtain ⟨x, w, rest, dims, hin, -, hrank, hg, hd, hsz, hn⟩ := resolve_ok_inv opts sh n n' h
  obtain ⟨batch, m, oh, ow, hb, hm, hoh, how, hdims⟩ := resolve_output_size_some x w _ dims hsz
  obtain ⟨ih, pb0, pe0, k0, d0, s0, a1, a2, a3, a4, a5, a6, a7, a8⟩ := output_axis_some x _ 0 oh hoh
  obtain ⟨iw, pb1, pe1, k1, d1, s1, b1, b2, b3, b4, b5, b6, b7, b8⟩ := output_axis_some x _ 1 ow how
  have hd0 : d0 = 1 := hd d0 (List.getElem?_mem a5)
  have hd1 : d1 = 1 := hd d1 (List.getElem?_mem b5)
  obtain ⟨xn, xd, xt⟩ := x
  simp only at hrank hb a1 b1
  match xd, hrank with
  | [b, c, hh, ww], _ =>
    simp at hb a1 b1
    subst hb a1 b1 hd0 hd1
    have e0 : (k0 - 1) * 1 + 1 = k0 := by ring
    have e1 : (k1 - 1) * 1 + 1 = k1 := by ring
    rw [e0] at a8
    rw [e1] at b8
    subst hn a8 b8 hdims
    refine ⟨{ name := xn, data_dim := [b, c, hh, ww], data_type := xt }, w,
      output_tensor opts [b, m, Int.fdiv (hh + pb0 + pe0 - k0) s0 + 1,
        Int.fdiv (ww + pb1 + pe1 - k1) s1 + 1], b, c, hh, ww, m, k0, k1, 1, 1, s0, s1,
      pb0, pb1, pe0, pe1,
      by simp [hin], by simp [hin], by simp [register_output], rfl, hm, a4, b4, a5, b5, a6, b6,
      a2, b2, a3, b3, hg, hd, a7, b7, rfl, rfl, ?_, ?_⟩
    · simp [output_spatial_size, a7]
    · simp [output_spatial_size, b7]

/-- C9, instance. Scenario A: data (1,1,5,5), weights (1,1,3,3), stride 1, no padding gives
the output shape (1,1,3,3). -/
theorem resolve_output_shape_witness :
    resolve { quantize := false } plainShared nodeA = Outcome.ok resolvedA ∧
    resolvedA.output_params = [(output_tensor { quantize := false } [1, 1, 3, 3], "y")] ∧
    ∃ (x w rv : Tensor) (batch chan in_h in_w m k0 k1 d0 d1 s0 s1 pb0 pb1 pe0 pe1 : Int),
      nodeA.inputs[0]? = some x ∧ nodeA.inputs[1]? = some w ∧
      resolvedA.output_params = nodeA.output_params ++ [(rv, "y")] ∧
      x.data_dim = [batch, chan, in_h, in_w] ∧ w.data_dim[0]? = some m ∧
      resolvedA.kernel_shape[0]? = some k0 ∧ resolvedA.kernel_shape[1]? = some k1 ∧
      resolvedA.dilations[0]? = some d0 ∧ resolvedA.dilations[1]? = some d1 ∧
      resolvedA.strides[0]? = some s0 ∧ resolvedA.strides[1]? = some s1 ∧
      resolvedA.pads[0]? = some pb0 ∧ resolvedA.pads[1]? = some pb1 ∧
      resolvedA.pads[2]? = some pe0 ∧ resolvedA.pads[3]? = some pe1 ∧
      resolvedA.group = 1 ∧ (∀ d ∈ resolvedA.dilations, d = 1) ∧ s0 ≠ 0 ∧ s1 ≠ 0 ∧
      rv.data_dim.length = 4 ∧
      rv.data_dim = [batch, m, Int.fdiv (in_h + pb0 + pe0 - k0) s0 + 1,
                     Int.fdiv (in_w + pb1 + pe1 - k1) s1 + 1] ∧
      output_spatial_size in_h pb0 pe0 k0 d0 s0 = some (Int.fdiv (in_h + pb0 + pe0 - k0) s0 + 1) ∧
      output_spatial_size in_w pb1 pe1 k1 d1 s1 = some (Int.fdiv (in_w + pb1 + pe1 - k1) s1 + 1) :=
  ⟨by decide, rfl,
    resolve_output_shape { quantize := false } plainShared nodeA resolvedA (by decide)⟩

/-- C10. With quantization on, the divisor written into the finalize fragment
is the generator's `int` value of `kernel_shape[0]*kernel_shape[1]*16`.  For a
kernel shape whose two dimensions are at least 1 and whose product times 16 is
below 2^31, or with a dimension equal to 0, that value is exactly
`kernel_shape[0] * kernel_shape[1] * 16` and its decimal text follows `cell/`
in the fragment; it is strictly positive in the first case, so the generated
division is defined on every store, and it is 0 when a dimension is 0, in
which case the generated division has no value. -/
theorem divisor_literal (sh : Shared) (n : ConvInteger) (k0 k1 : Int) (ks : List Int)
    (hk : n.kernel_shape = k0 :: k1 :: ks)
    (hcase : (1 ≤ k0 ∧ 1 ≤ k1 ∧ k0 * k1 * 16 < 2147483648) ∨ k0 = 0 ∨ k1 = 0)
    (τ : Store) (y_idx : String) :
    divisor n = some (k0 * k1 * 16) ∧
    print_output_cell_finalize { quantize := true } sh n y_idx =
      some (sh.INDT 3 ++ "int32_t tmp = cell/" ++ toString (k0 * k1 * 16) ++ ";" ++ "\n" ++
        (sh.INDT 3 ++ "tmp = tmp > 127?127:tmp;" ++ "\n") ++
        (sh.INDT 3 ++ "tmp = tmp < -127?-127:tmp;" ++ "\n") ++
        (sh.INDT 3 ++ "y[b][m][o0][o1] = tmp;" ++ "\n")) ∧
    ((1 ≤ k0 ∧ 1 ≤ k1 ∧ k0 * k1 * 16 < 2147483648) →
      0 < k0 * k1 * 16 ∧
      ∃ v, (exec_all (cell_finalize { quantize := true } (k0 * k1 * 16)) τ).map
        (fun τ1 => τ1.get "y[b][m][o0][o1]") = some v) ∧
    ((k0 = 0 ∨ k1 = 0) →
      k0 * k1 * 16 = 0 ∧ toString (k0 * k1 * 16) = "0" ∧
      exec_all (cell_finalize { quantize := true } (k0 * k1 * 16)) τ = none) := by
  have hdiv : divisor n = some (k0 * k1 * 16) := by
    rcases hcase with ⟨h0, h1, hlt⟩ | h | h
    · exact (divisor_exact n k0 k1 ks hk h0 h1 hlt).1
    · subst h
      simp only [divisor, hk, zero_mul]
      decide
    · subst h
      simp only [divisor, hk, mul_zero, zero_mul]
      decide
  refine ⟨hdiv, ?_, ?_, ?_⟩
  · simp only [print_output_cell_finalize, hdiv, if_true]
  · rintro ⟨h0, h1, hlt⟩
    have hpos := (divisor_exact n k0 k1 ks hk h0 h1 hlt).2
    exact ⟨hpos, _, exec_cell_finalize_on _ (by omega) τ⟩
  · intro hz
    have e : k0 * k1 * 16 = 0 := by
      rcases hz with h | h <;> subst h <;> simp
    rw [e]
    exact ⟨rfl, by decide, exec_cell_finalize_zero τ⟩

/-- C10, instance. Scenario B kernel (3x3): the emitted divisor is 144. -/
theorem divisor_literal_witness :
    resolvedB.kernel_shape = 3 :: 3 :: [] ∧
    (((1 : Int) ≤ 3 ∧ (1 : Int) ≤ 3 ∧ (3 : Int) * 3 * 16 < 2147483648) ∨ (3 : Int) = 0 ∨
      (3 : Int) = 0) ∧
    print_output_cell_finalize { quantize := true } plainShared resolvedB "" =
      some "\t\t\tint32_t tmp = cell/144;\n\t\t\ttmp = tmp > 127?127:tmp;\n\t\t\ttmp = tmp < -127?-127:tmp;\n\t\t\ty[b][m][o0][o1] = tmp;\n" ∧
    divisor resolvedB = some (3 * 3 * 16) :=
  ⟨rfl, Or.inl (by decide), by decide,
    (divisor_literal plainShared resolvedB 3 3 [] rfl (Or.inl (by decide)) zeroStore "").1⟩

end toC
